import Mathlib

/-!
Verification of the ring-style-adapter normalization-and-dispatch pipeline.

This file gives a shallow embedding of the two Python source files of the
repository:

* src/app.py  — the Flask adapter: validation (`validate`, from the source
  function named with a leading underscore), free-form answer normalization,
  the XML builder (`xml_superset`, `gen_result_key`, `nonempty_or`), the
  JSON fallback body builder, and the backend poll loop (`pollLoop`).
* src/main.py — the bundled FastAPI backend: the XML-consuming
  createRequest handler and its helper (`btext`, from the function named
  underscore-text in the source).

Modelling conventions:
* Python dynamic values are embedded as the inductive type JVal
  (null / bool / int / string / array / object).  Floating point numbers do
  not occur in any claim-relevant data path and are omitted from the value
  domain; numeric retry-interval hints are modelled over ℚ.
* Python str semantics: strip is modelled over the character list with the
  ASCII whitespace set, lower via Char.toLower (the source only compares
  ASCII identifiers and labels), and the in-operator as list infix.
* The XML wire step is modelled at tree level: ElementTree serialization of
  the adapter tree followed by ElementTree parsing in the backend is the
  identity on trees whose texts are XML-serializable (which the byte-level
  serializer xmlToString makes explicit), so the backend handler
  createRequest is applied directly to the adapter's element tree.
* Nondeterministic inputs of the source (time.strftime timestamp,
  uuid4 suffix, the HTTP fetch responses) are explicit parameters.
-/

namespace RingAdapter

/-! ### Python string helpers -/

/-- Whitespace set removed by Python str.strip (ASCII part). -/
def pyIsSpace (c : Char) : Bool :=
  c = ' ' || c = '\t' || c = '\n' || c = '\r' || c.val = 11 || c.val = 12

/-- Python str.strip(): remove leading and trailing whitespace. -/
def pstrip (s : String) : String :=
  ⟨List.rdropWhile pyIsSpace (s.data.dropWhile pyIsSpace)⟩

/-- Python str.lower() (ASCII case folding; the source only lowers ASCII
identifiers, labels and status words). -/
def pyLower (s : String) : String :=
  ⟨s.data.map Char.toLower⟩

/-- Python substring containment w in s. -/
def pyIn (w s : String) : Bool :=
  s.data.tails.any (fun t => w.data.isPrefixOf t)

/-! ### Dynamic JSON-like values (the Python value domain of the adapter) -/

/-- Embedding of the Python/JSON values flowing through the adapter. -/
inductive JVal where
  | null : JVal
  | b (x : Bool) : JVal
  | i (n : Int) : JVal
  | s (x : String) : JVal
  | arr (l : List JVal) : JVal
  | obj (kvs : List (String × JVal)) : JVal
deriving Repr

/-- Python truthiness of a value. -/
def jTruthy : JVal → Bool
  | .null => false
  | .b x => x
  | .i n => n ≠ 0
  | .s x => x ≠ ""
  | .arr l => !l.isEmpty
  | .obj kvs => !kvs.isEmpty

/-- Python dict.get(k) with default None; duplicate keys keep the last
binding (dict construction order), non-dicts have no keys. -/
def jget : JVal → String → JVal
  | .obj kvs, k =>
    match kvs.reverse.lookup k with
    | some v => v
    | none => .null
  | _, _ => .null

/-- Python key-membership test (k in d). -/
def jHasKey : JVal → String → Bool
  | .obj kvs, k => kvs.any (fun p => p.1 == k)
  | _, _ => false

/-- Python x or y on values (first operand if truthy). -/
def pyOrJ (a b : JVal) : JVal :=
  if jTruthy a then a else b

-- Python repr, as used by str() on containers (inner strings quoted).
-- Escaping subtleties of repr are irrelevant to every claim: no claim
-- evaluates str() on a container.
mutual

def pyRepr : JVal → String
  | .null => "None"
  | .b true => "True"
  | .b false => "False"
  | .i n => toString n
  | .s x => "'" ++ x ++ "'"
  | .arr l => "[" ++ pyReprList l ++ "]"
  | .obj kvs => "\x7b" ++ pyReprObj kvs ++ "\x7d"

def pyReprList : List JVal → String
  | [] => ""
  | [v] => pyRepr v
  | v :: rest => pyRepr v ++ ", " ++ pyReprList rest

def pyReprObj : List (String × JVal) → String
  | [] => ""
  | [(k, v)] => "'" ++ k ++ "': " ++ pyRepr v
  | (k, v) :: rest => "'" ++ k ++ "': " ++ pyRepr v ++ ", " ++ pyReprObj rest

end

/-- Adapter helper flex-str: None to empty, bools to 1/0, else str(x). -/
def flex_str : JVal → String
  | .null => ""
  | .b true => "1"
  | .b false => "0"
  | .i n => toString n
  | .s x => x
  | v => pyRepr v

/-- Adapter helper pick-first-truthy over candidate values; absent
arguments are passed as null (Python None), blank strings are skipped,
every other value (including 0, False, empty containers) is returned.
The null result models the Python None return. -/
def pickFirstTruthy : List JVal → JVal
  | [] => .null
  | v :: rest =>
    match v with
    | .null => pickFirstTruthy rest
    | .s x => if pstrip x = "" then pickFirstTruthy rest else .s x
    | w => w

/-- String view of a user-metadata dict entry.  In the source the user dict
values are used unconverted; a non-string value would raise AttributeError
inside nonempty-or before any XML is emitted, so the model restricts user
fields to strings (absent fields default to the empty string). -/
def jStrField : JVal → String
  | .s x => x
  | _ => ""

/-! ### Mapping (the question catalog of app.py) -/

/-- Per-question metadata of the mapping config. -/
structure QMeta where
  canonical_label : String := ""
  labels : List String := []
  options : Option (List JVal) := none
deriving Repr

/-- The Mapping class state after init (label index and option tables are
derived functions below, faithful to the init loops). -/
structure Mapping where
  allow_unknown : Bool
  must_have_keys : List String
  questions : List (String × QMeta)
deriving Repr

/-- Python dict lookup on the questions table (last binding wins). -/
def qmetaGet (m : Mapping) (k : String) : Option QMeta :=
  m.questions.reverse.lookup k

/-- The label-to-key entries inserted by Mapping init, in insertion order:
for each question, its canonical label then its labels, skipping empty
ones, keyed by the stripped lower-cased label. -/
def labelPairs (m : Mapping) : List (String × String) :=
  m.questions.flatMap (fun p =>
    ((p.2.canonical_label :: p.2.labels).filter (fun lbl => lbl ≠ "")).map
      (fun lbl => (pyLower (pstrip lbl), p.1)))

/-- label-to-key dict lookup (later insertions overwrite earlier ones). -/
def labelToKey (m : Mapping) (x : String) : Option String :=
  (labelPairs m).reverse.lookup x

/-- Mapping.resolve-q-key: direct key hit, else label table. -/
def resolve_q_key (m : Mapping) (incoming : String) : Option String :=
  if incoming = "" then none
  else
    let k := pstrip incoming
    if (qmetaGet m k).isSome then some k
    else labelToKey m (pyLower k)

/-- The normalized-options dict built by Mapping init for one key:
string options indexed by their stripped lower-cased spelling.  A key
whose options entry is absent or not a list has no dict; an empty dict and
an absent one behave identically in normalize-answer (both falsy), so both
are modelled as the empty list. -/
def normOptions (m : Mapping) (k : String) : List (String × String) :=
  match qmetaGet m k with
  | none => []
  | some meta =>
    match meta.options with
    | none => []
    | some opts =>
      opts.filterMap (fun o =>
        match o with
        | .s x => some (pyLower (pstrip x), x)
        | _ => none)

/-- Mapping.normalize-answer. -/
def normalize_answer (m : Mapping) (k answer0 : String) : String :=
  let answer := pstrip answer0
  if answer = "" then answer
  else
    let norm := normOptions m k
    if norm.isEmpty then answer
    else
      match norm.reverse.lookup (pyLower answer) with
      | some v => v
      | none => answer

/-! ### Free-form answer normalization (app.py normalize-freeform) -/

/-- has(*words) in the source: any keyword occurs as a substring. -/
def hasAny (s : String) (ws : List String) : Bool :=
  ws.any (fun w => pyIn w s)

/-- The free-form rewriting table of the adapter, exactly the keyword
branches of the source. -/
def normalize_freeform (k text : String) : String :=
  if text = "" then text
  else
    let s := pyLower (pstrip text)
    if k = "q1_purchasing_for" then
      if hasAny s ["myself", "for me", "self", "me only"] then "Self"
      else if hasAny s ["wife", "husband", "mother", "father", "friend", "gf", "bf",
                        "partner", "fiancé", "fiance"] then "Others"
      else text
    else if k = "q2_gender" then
      if hasAny s ["female", "woman", "girl", "she", "her"] then "Female"
      else if hasAny s ["male", "man", "boy", "he", "him"] then "Male"
      else text
    else if k = "q3_profession" then text
    else if k = "q4_occasion" then
      if hasAny s ["wedding", "marriage", "bride", "groom", "shaadi"] then "Wedding"
      else if hasAny s ["engagement", "ring ceremony", "roka", "sagai"] then "Engagement"
      else if hasAny s ["daily", "office", "work", "casual"] then "Daily wear"
      else if hasAny s ["party", "birthday", "festival", "anniversary"] then "Party"
      else text
    else if k = "q5_purpose" then
      if hasAny s ["daily", "routine", "office", "work"] then "Daily wear"
      else if hasAny s ["gift"] then "Gifting"
      else if hasAny s ["wedding"] then "Wedding"
      else if hasAny s ["engagement"] then "Engagement"
      else if hasAny s ["party", "occasion", "event"] then "Occasional wear"
      else text
    else if k = "q6_day" then
      if hasAny s ["busy", "hectic", "packed", "lot of activities"] then
        "Busy With a lot of Activities"
      else if hasAny s ["relaxed", "easy", "laid back"] then "Relaxed & Easy-going"
      else text
    else if k = "q7_weekend" then
      if hasAny s ["social", "party", "go out", "friends", "outing"] then
        "Going out & socialising"
      else if hasAny s ["home", "stay in", "me-time", "read", "netflix"] then
        "Staying in & relaxing"
      else text
    else if k = "q8_work_dress" then
      if hasAny s ["designer", "chic", "stylish", "fashion"] then
        "Stylish & Chic: Designer Clothing"
      else if hasAny s ["formal", "business", "smart"] then "Classic Formal"
      else if hasAny s ["casual", "comfortable", "comfy"] then "Smart Casuals"
      else text
    else if k = "q9_line" then
      if hasAny s ["alone", "by myself", "independent"] then "You prefer to be on your own"
      else if hasAny s ["chat", "talk", "friends", "social"] then
        "You like to chat with people around"
      else text
    else if k = "q10_painting" then
      if hasAny s ["meaning", "story", "symbol", "origin", "heritage"] then
        "You value the meaning of the art & origin"
      else if hasAny s ["color", "colour", "vibrant", "aesthetic", "look"] then
        "You value the colors & aesthetics"
      else text
    else if k = "q11_emergency" then
      if hasAny s ["arrange care", "care for my mother", "both"] then
        "You will arrange care for your mother & attend the meeting"
      else if hasAny s ["stay", "skip", "miss"] && hasAny s ["mother", "mom"] then
        "You will stay with your mother"
      else if hasAny s ["meeting"] && hasAny s ["attend"] then "You will attend the meeting"
      else text
    else if k = "q12_drive" then text
    else if k = "q13_last_minute_plans" then
      if hasAny s ["dislike", "hate", "prefer planning", "plan ahead"] then
        "You dislike last-minute plans & prefer planning ahead"
      else if hasAny s ["spontaneous", "go with the flow", "last minute"] then
        "You enjoy spontaneous last-minute plans"
      else text
    else text

/-! ### Question/answer extraction from one item (app.py) -/

/-- The guarded nested lookups (item.get(key) or empty).get("value") used
for selectedOption-style answers: null unless item.key is a dict. -/
def selValue (item : JVal) (key : String) : JVal :=
  match jget item key with
  | .obj kvs => jget (.obj kvs) "value"
  | _ => .null

/-- First pass of the answers/options/choices fallback: selected elements
of dicts, every non-dict element. -/
def pickedFirstPass (l : List JVal) : List String :=
  l.flatMap (fun el =>
    match el with
    | .obj kvs =>
      match jget (.obj kvs) "selected" with
      | .b true =>
        [flex_str (pickFirstTruthy
          [jget (.obj kvs) "value", jget (.obj kvs) "label", jget (.obj kvs) "text"])]
      | _ => []
    | v => [flex_str v])

/-- Second pass: the first element providing a truthy candidate (the
source breaks after the first append). -/
def pickedSecondPass : List JVal → List String
  | [] => []
  | el :: rest =>
    match el with
    | .obj kvs =>
      let cand := pickFirstTruthy
        [jget (.obj kvs) "value", jget (.obj kvs) "label", jget (.obj kvs) "text"]
      if jTruthy cand then [flex_str cand] else pickedSecondPass rest
    | v => if jTruthy v then [flex_str v] else pickedSecondPass rest

/-- The loop over the answers/options/choices keys: first key holding a
non-empty list whose passes pick something yields the joined non-empty
picks; otherwise the answer stays absent (null). -/
def answersFallback (item : JVal) : List String → JVal
  | [] => .null
  | key :: restKeys =>
    match jget item key with
    | .arr l =>
      if l.isEmpty then answersFallback item restKeys
      else
        let picked := pickedFirstPass l
        let picked2 := if picked.isEmpty then pickedSecondPass l else picked
        if picked2.isEmpty then answersFallback item restKeys
        else .s (String.intercalate ", " (picked2.filter (fun p => p ≠ "")))
    | _ => answersFallback item restKeys

/-- extract-question-and-answer of the source: accepts many UI shapes and
returns (question-text, answer-text); non-dict items yield two empty
strings. -/
def extractQA (item : JVal) : String × String :=
  match item with
  | .obj kvs =>
    let it := JVal.obj kvs
    let q := pickFirstTruthy
      [jget it "question", jget it "q", jget it "label", jget it "title",
       jget it "text", jget it "id", jget it "key"]
    let a0 := pickFirstTruthy
      [jget it "answer", jget it "value", jget it "option",
       jget it "selected", jget it "choice", jget it "val"]
    let a1 :=
      match a0 with
      | .null =>
        pickFirstTruthy
          [selValue it "selectedOption", selValue it "selected_option", selValue it "option"]
      | av => av
    let a2 :=
      match a1 with
      | .null => answersFallback it ["answers", "options", "choices"]
      | av => av
    (flex_str q, flex_str a2)
  | _ => ("", "")

/-- ensure-list-qas of the source: lists pass through, dicts are probed at
qas/items/data, strings are JSON-parsed (the parser is a parameter: the
claims hold for every total parse function), everything else degrades to
the empty list.  The result is always an array value. -/
def ensure_list_qas (loads : String → Option JVal) (raw : JVal) : JVal :=
  match raw with
  | .arr l => .arr l
  | .obj kvs =>
    match jget (.obj kvs) "qas" with
    | .arr l => .arr l
    | _ =>
      match jget (.obj kvs) "items" with
      | .arr l => .arr l
      | _ =>
        match jget (.obj kvs) "data" with
        | .arr l => .arr l
        | _ => .arr []
  | .s x =>
    let t := pstrip x
    if t = "" then .arr []
    else
      match loads t with
      | some (.arr l) => .arr l
      | _ => .arr []
  | _ => .arr []

/-! ### Validation (app.py underscore-validate) -/

/-- The user dict built at the top of validate.  The or-chains pick the
first truthy (non-empty) field. -/
structure UserT where
  full_name : String
  email : String
  phone_number : String
  birth_date : String
  request_id : String
  result_key : String
  test_mode : String
deriving DecidableEq, Repr

/-- User-field extraction of validate. -/
def userOf (payload : JVal) : UserT where
  full_name := jStrField (pyOrJ (jget payload "full_name") (pyOrJ (jget payload "name") (.s "")))
  email := jStrField (pyOrJ (jget payload "email") (.s ""))
  phone_number :=
    jStrField (pyOrJ (jget payload "phone_number") (pyOrJ (jget payload "contact") (.s "")))
  birth_date :=
    jStrField (pyOrJ (jget payload "birth_date")
      (pyOrJ (jget payload "dob") (pyOrJ (jget payload "date") (.s ""))))
  request_id := jStrField (pyOrJ (jget payload "request_id") (pyOrJ (jget payload "id") (.s "")))
  result_key := jStrField (pyOrJ (jget payload "result_key") (.s ""))
  test_mode := jStrField (pyOrJ (jget payload "test_mode") (.s "live"))

/-- One normalized question/answer triple. -/
structure QA where
  key : String
  question_text : String
  answer_text : String
deriving DecidableEq, Repr

/-- The validation summary attached to the result. -/
structure Validation where
  missing_keys : List String
deriving DecidableEq, Repr

/-- The ValueError variants raised by validate. -/
inductive VErr where
  | badQaType : VErr
  | unknownQuestion (questionReceived : String) : VErr
  | mandatoryMissing (keys : List String) : VErr
deriving DecidableEq, Repr

/-- Question text attached to a resolved key: the metadata canonical
label (the questions dict default supplies the key itself when the key is
absent), with the key as fallback when the label is falsy. -/
def qlabel (m : Mapping) (k : String) : String :=
  let lbl :=
    match qmetaGet m k with
    | some meta => meta.canonical_label
    | none => k
  if lbl = "" then k else lbl

/-- The per-item loop of validate: extract question and answer, resolve
the canonical key (label table, else positional fallback into the
must-have sequence), skip or fail on unknowns, and normalize the answer.
The parameter ap is the ACCEPT-PARTIAL configuration flag. -/
def extractLoop (ap : Bool) (m : Mapping) : List JVal → Nat → Except VErr (List QA)
  | [], _ => .ok []
  | item :: rest, idx =>
    let qa := extractQA item
    let q_key0 := if qa.1 ≠ "" then resolve_q_key m qa.1 else none
    let q_key :=
      match q_key0 with
      | some k => some k
      | none => m.must_have_keys[idx]?
    match q_key with
    | none =>
      if m.allow_unknown || ap then extractLoop ap m rest (idx + 1)
      else .error (.unknownQuestion (if qa.1 ≠ "" then qa.1 else "index_" ++ toString idx))
    | some k =>
      let ans := normalize_answer m k (normalize_freeform k qa.2)
      match extractLoop ap m rest (idx + 1) with
      | .error e => .error e
      | .ok tail => .ok (⟨k, qlabel m k, ans⟩ :: tail)

/-- Index of the last occurrence of a key in the sequence (a dict built
by enumeration maps every duplicate key to its last index). -/
def lastIdx (mh : List String) (k : String) : Option Nat :=
  match mh with
  | [] => none
  | a :: t =>
    match lastIdx t k with
    | some j => some (j + 1)
    | none => if a = k then some 0 else none

/-- The order dict of validate: index of a key in the must-have sequence
(later duplicates overwrite), default 9999 for keys outside it. -/
def pyOrderGet (mh : List String) (k : String) : Nat :=
  match lastIdx mh k with
  | some i => i
  | none => 9999

/-- The sort key relation used on normalized pairs. -/
def qaOrder (m : Mapping) (a b : QA) : Prop :=
  pyOrderGet m.must_have_keys a.key ≤ pyOrderGet m.must_have_keys b.key

instance qaOrderDec (m : Mapping) : DecidableRel (qaOrder m) :=
  fun _ _ => Nat.decLe _ _

instance qaOrderTotal (m : Mapping) : IsTotal QA (qaOrder m) :=
  ⟨fun _ _ => Nat.le_total _ _⟩

instance qaOrderTrans (m : Mapping) : IsTrans QA (qaOrder m) :=
  ⟨fun _ _ _ hab hbc => Nat.le_trans hab hbc⟩

/-- Python list.sort with the order dict key.  Timsort is a stable sort
and insertion sort is the canonical stable sort, so both produce the
unique stably-sorted permutation. -/
def sortQas (m : Mapping) (pre : List QA) : List QA :=
  List.insertionSort (qaOrder m) pre

/-- The missing-keys computation: must-have keys not seen among the
resolved pairs. -/
def missingOf (m : Mapping) (pre : List QA) : List String :=
  m.must_have_keys.filter (fun k => !(pre.map QA.key).contains k)

/-- The raw question-answers value of the payload after ensure-list-qas. -/
def qaItems (loads : String → Option JVal) (payload : JVal) : JVal :=
  ensure_list_qas loads
    (pyOrJ (jget payload "questionAnswers") (pyOrJ (jget payload "question_answers") (.arr [])))

/-- validate of the source (underscore-validate): user extraction, QA
coercion and type check, per-item extraction loop, missing-keys gate
(strict when ap is false), and the canonical-order sort. -/
def validate (loads : String → Option JVal) (ap : Bool) (payload : JVal) (m : Mapping) :
    Except VErr (UserT × List QA × Validation) :=
  match qaItems loads payload with
  | .arr raw =>
    match extractLoop ap m raw 0 with
    | .error e => .error e
    | .ok pre =>
      let missing := missingOf m pre
      if !missing.isEmpty && !ap then .error (.mandatoryMissing missing)
      else .ok (userOf payload, sortQas m pre, ⟨missing⟩)
  | _ => .error .badQaType

/-! ### Result key and XML builder (app.py) -/

/-- gen-result-key: rk- prefix, supplied seed or the strftime timestamp
(the now parameter), and the uuid4 six-hex suffix (the rand6 parameter). -/
def gen_result_key (seed now rand6 : String) : String :=
  let base := pstrip (if seed = "" then now else seed)
  "rk-" ++ base ++ "-" ++ rand6

/-- nonempty helper of the source: stripped value, else the fallback. -/
def nonempty_or (val fb : String) : String :=
  let v := pstrip val
  if v = "" then fb else v

/-- Hex digit for JSON control-character escapes. -/
def hexDigit (n : Nat) : String :=
  String.singleton (("0123456789abcdef".data).getD n '0')

/-- JSON string escaping as performed by json.dumps with ensure-ascii
disabled. -/
def jsonEscapeChar (c : Char) : String :=
  if c = '\\' then "\\\\"
  else if c = '"' then "\\\""
  else if c = '\n' then "\\n"
  else if c = '\t' then "\\t"
  else if c = '\r' then "\\r"
  else if c.val = 8 then "\\b"
  else if c.val = 12 then "\\f"
  else if c.val < 32 then "\\u00" ++ hexDigit (c.val.toNat / 16) ++ hexDigit (c.val.toNat % 16)
  else String.singleton c

/-- Escape a JSON string body. -/
def jsonEscape (s : String) : String :=
  s.data.foldl (fun acc c => acc ++ jsonEscapeChar c) ""

/-- json.dumps of the qa-payload list built in xml-superset: one object
per pair with question text and the selectedOption/value nesting, with
the default item and key separators. -/
def jsonDumpsQA (qas : List QA) : String :=
  "[" ++ String.intercalate ", " (qas.map (fun qa =>
    "\x7b\"question\": \"" ++ jsonEscape qa.question_text ++
    "\", \"selectedOption\": \x7b\"value\": \"" ++ jsonEscape qa.answer_text ++
    "\"\x7d\x7d")) ++ "]"

/-- ElementTree element: tag, text and children (a None text and an empty
text behave identically everywhere the sources look, so text is a plain
string). -/
inductive XmlElem where
  | mk (tag : String) (text : String) (children : List XmlElem)

def XmlElem.tag : XmlElem → String
  | .mk t _ _ => t

def XmlElem.text : XmlElem → String
  | .mk _ x _ => x

def XmlElem.children : XmlElem → List XmlElem
  | .mk _ _ c => c

/-- xml-superset of the source: the Request element expected by the
backend together with the always-regenerated result key.  The or-chains
over name/contact/dob read keys that are never present on the user dict
validate builds, so they collapse to the single field each. -/
def xml_superset (u : UserT) (qas : List QA) (now rand6 : String) : XmlElem × String :=
  let incoming :=
    pstrip (if u.result_key ≠ "" then u.result_key
            else if u.request_id ≠ "" then u.request_id else "")
  let result_key := gen_result_key incoming now rand6
  let full_name := nonempty_or u.full_name "Unknown User"
  let email := nonempty_or u.email "unknown@example.invalid"
  let phone_number := nonempty_or u.phone_number "N/A"
  let birth_date := nonempty_or u.birth_date "1970-01-01"
  let qa_json := jsonDumpsQA qas
  (.mk "Request" ""
    [.mk "full_name" full_name [],
     .mk "email" email [],
     .mk "phone_number" phone_number [],
     .mk "result_key" result_key [],
     .mk "date" birth_date [],
     .mk "questionAnswers" qa_json []], result_key)

/-- Text escaping performed by ElementTree on serialization. -/
def xmlEscapeText (s : String) : String :=
  s.data.foldl (fun acc c =>
    acc ++ (if c = '&' then "&amp;"
            else if c = '<' then "&lt;"
            else if c = '>' then "&gt;"
            else String.singleton c)) ""

mutual

/-- ElementTree tostring with unicode encoding: self-closing form for an
empty element, otherwise text then serialized children. -/
def xmlToString : XmlElem → String
  | .mk tag text children =>
    if text = "" && children.isEmpty then "<" ++ tag ++ " />"
    else "<" ++ tag ++ ">" ++ xmlEscapeText text ++ xmlChildrenString children ++ "</" ++ tag ++ ">"

def xmlChildrenString : List XmlElem → String
  | [] => ""
  | c :: cs => xmlToString c ++ xmlChildrenString cs

end

/-- Blank out the text of the result-key child: the part of the rendered
request that depends on the generated unique key. -/
def maskResultKey : XmlElem → XmlElem
  | .mk tag text children =>
    .mk tag text (children.map (fun c =>
      match c with
      | .mk ct _ cc => if ct = "result_key" then .mk ct "" cc else c))

/-! ### The bundled backend (main.py) -/

mutual

/-- All proper descendants of an element in document order (the node set
searched by the .// relative path). -/
def XmlElem.descendants : XmlElem → List XmlElem
  | .mk _ _ cs => descendantsList cs

def descendantsList : List XmlElem → List XmlElem
  | [] => []
  | c :: cs => c :: XmlElem.descendants c ++ descendantsList cs

end

/-- Element.find for a .//tag path: first matching descendant. -/
def xfind (root : XmlElem) (tag : String) : Option XmlElem :=
  root.descendants.find? (fun e => e.tag == tag)

/-- Element.findall for a .//tag path: all matching descendants. -/
def xfindall (root : XmlElem) (tag : String) : List XmlElem :=
  root.descendants.filter (fun e => e.tag == tag)

/-- The backend text helper (underscore-text in main.py): first xpath
whose node has non-blank text, stripped. -/
def btext (root : XmlElem) : List String → String
  | [] => ""
  | t :: rest =>
    match xfind root t with
    | some node =>
      let v := pstrip node.text
      if v ≠ "" then v else btext root rest
    | none => btext root rest

/-- ElementTree truthiness of an element: it counts as falsy when it has
no children (the or between the two find calls relies on this). -/
def elemTruthy (e : XmlElem) : Bool :=
  !e.children.isEmpty

/-- Python x or y over optional elements with element truthiness. -/
def pyOrElem (a b : Option XmlElem) : Option XmlElem :=
  match a with
  | some e => if elemTruthy e then some e else b
  | none => b

/-- The record stored by the backend under the fresh response id. -/
structure Stored where
  status : String
  request_id : String
  result_key : String
  full_name : String
  email : String
  phone_number : String
  date_of_birth : String
  qas : List (String × String)
  recommended_styles : List String
deriving DecidableEq, Repr

/-- Outcome of the backend createRequest handler: the 422 mapping-error
rejection when ET.fromstring raises on the posted bytes (its details
string, the exception text, is abstracted), the 422 missing-fields
rejection, or acceptance with the stored record and fresh response id. -/
inductive BResp where
  | mappingError : BResp
  | missingFields (missing : List String) : BResp
  | accepted (response_id : String) (item : Stored) : BResp
deriving DecidableEq, Repr

/-- createRequest of main.py applied to the parsed element tree; freshId
models the uuid4 response id. -/
def createRequest (root : XmlElem) (freshId : String) : BResp :=
  let name := btext root ["full_name", "FullName"]
  let email := btext root ["email", "Email"]
  let phone_number := btext root ["phone_number", "PhoneNumber", "contact", "Contact"]
  let request_id := btext root ["request_id", "RequestId", "RequestID"]
  let birth_date := btext root ["date_of_birth", "DateOfBirth", "dob", "DOB"]
  let qa_parent := pyOrElem (xfind root "question_answers") (xfind root "QuestionAnswers")
  let qas :=
    match qa_parent with
    | none => []
    | some p =>
      (xfindall p "qa" ++ xfindall p "QA").filterMap (fun qa =>
        let q := btext qa ["question", "Question"]
        let a := btext qa ["answer", "Answer"]
        if q ≠ "" ∨ a ≠ "" then some (q, a) else none)
  let missing :=
    (if name = "" then ["full_name"] else []) ++
    (if email = "" then ["email"] else []) ++
    (if request_id = "" then ["request_id"] else [])
  if !missing.isEmpty then .missingFields missing
  else
    .accepted freshId
      ⟨"done", request_id, btext root ["result_key", "ResultKey"], name, email,
       phone_number, birth_date, qas, ["Band Ring Style", "Couple Ring Style"]⟩

/-! ### The serialized wire between the two components

The adapter posts tostring bytes and the backend re-parses them with
ET.fromstring inside a try/except whose except branch answers the 422
mapping-error response.  tostring escapes only the ampersand and the
angle brackets and emits every other text character raw, so fromstring
succeeds exactly when the tags are XML names and every text character is
an XML character, and then it returns the same tree up to the parser's
line-ending normalization (CRLF and lone CR both read back as LF). -/

/-- A character expat accepts in XML 1.0 content: tab, LF, CR, or a
character from 0x20 up inside the XML character ranges.  Any other
character in a text (a control character such as 0x01, reachable through
JSON unicode escapes in the payload) makes the backend's fromstring call
raise. -/
def xmlChar (c : Char) : Bool :=
  c.val = 9 || c.val = 10 || c.val = 13 ||
  (32 ≤ c.val && c.val ≤ 0xD7FF) || (0xE000 ≤ c.val && c.val ≤ 0xFFFD) || 0x10000 ≤ c.val

/-- An XML character that the serialize-parse round trip also leaves
unchanged: everything but the carriage return, which the parser's
line-ending normalization rewrites to LF. -/
def xmlCleanChar (c : Char) : Bool :=
  xmlChar c && c.val ≠ 13

/-- An XML name tag of the plain ASCII shape both sources emit. -/
def xmlTagOk (s : String) : Bool :=
  match s.data with
  | [] => false
  | c :: cs => (c.isAlpha || c = '_') &&
      cs.all (fun d => d.isAlpha || d.isDigit || d = '_' || d = '-' || d = '.')

mutual

/-- Every text of the tree satisfies p characterwise. -/
def xmlTextsAll (p : Char → Bool) : XmlElem → Bool
  | .mk _ text children => text.data.all p && xmlTextsAllList p children

def xmlTextsAllList (p : Char → Bool) : List XmlElem → Bool
  | [] => true
  | c :: cs => xmlTextsAll p c && xmlTextsAllList p cs

end

mutual

/-- Every tag of the tree is an XML name. -/
def xmlTagsOk : XmlElem → Bool
  | .mk tag _ children => xmlTagOk tag && xmlTagsOkList children

def xmlTagsOkList : List XmlElem → Bool
  | [] => true
  | c :: cs => xmlTagsOk c && xmlTagsOkList cs

end

/-- The serialized tree parses back: XML-name tags and XML characters in
every text. -/
def xmlWellFormed (e : XmlElem) : Bool :=
  xmlTagsOk e && xmlTextsAll xmlChar e

/-- The parser's line-ending normalization on one text: CRLF collapses
to LF and a lone CR reads back as LF. -/
def xmlNormEol : List Char → List Char
  | [] => []
  | '\r' :: '\n' :: rest => '\n' :: xmlNormEol rest
  | '\r' :: rest => '\n' :: xmlNormEol rest
  | c :: rest => c :: xmlNormEol rest

mutual

/-- The tree fromstring returns for a well-formed serialization: the
same tree with line endings normalized in every text. -/
def xmlNormalize : XmlElem → XmlElem
  | .mk tag text children => .mk tag (String.mk (xmlNormEol text.data)) (xmlNormalizeList children)

def xmlNormalizeList : List XmlElem → List XmlElem
  | [] => []
  | c :: cs => xmlNormalize c :: xmlNormalizeList cs

end

/-- createRequest of main.py applied to the adapter's serialized bytes:
fromstring of the tostring output either yields the normalized tree and
the handler proceeds on it, or raises, taking the except branch to the
422 mapping-error response. -/
def createRequestWire (root : XmlElem) (freshId : String) : BResp :=
  if xmlWellFormed root then createRequest (xmlNormalize root) freshId else .mappingError

/-! ### JSON fallback body (app.py as-json-backend-payload) -/

/-- Python str() (not the flex variant): bools print as True/False. -/
def pyStrOf : JVal → String
  | .null => "None"
  | .b true => "True"
  | .b false => "False"
  | .i n => toString n
  | .s x => x
  | v => pyRepr v

/-- The body shaped for the createRequestJSON fallback endpoint. -/
def as_json_backend_payload (effectiveResultKey : String) (u : UserT) (qas : List QA) : JVal :=
  .obj
    [("request_id", .s effectiveResultKey),
     ("email", .s (if u.email ≠ "" then u.email else "unknown@example.invalid")),
     ("name", .s (if u.full_name ≠ "" then u.full_name else "Unknown User")),
     ("phone_number", .s (if u.phone_number ≠ "" then u.phone_number else "N/A")),
     ("birth_date", .s (if u.birth_date ≠ "" then u.birth_date else "1970-01-01")),
     ("questions", .arr (qas.map (fun qa => .s qa.question_text))),
     ("answers", .arr (qas.map (fun qa => .s qa.answer_text)))]

/-! ### Backend poll loop (app.py call-backend, fetch polling) -/

/-- One fetch response: HTTP status code, raw body text, the parsed JSON
body when parsing succeeds, and the integer-parsed Retry-After header
(absent and unparseable headers coincide). -/
structure FetchResp where
  code : Nat
  text : String
  json : Option JVal
  retryAfterHdr : Option Int

/-- The terminal-state test of the poll loop: a data or result key, a
done-set status word (stringified then lower-cased), or a literal done
flag. -/
def isTerminalPoll (d : JVal) : Bool :=
  jHasKey d "data" || jHasKey d "result" ||
  (let st := pyLower (pyStrOf (pyOrJ (jget d "status") (pyOrJ (jget d "Status") (.s ""))))
   st = "done" || st = "completed" || st = "ok" || st = "success" ||
   st = "ready" || st = "finished") ||
  (match jget d "done" with
   | .b true => true
   | _ => false)

/-- Python float() on the hint values the adapter reads: numbers convert;
other values (and numeric strings, which no claim exercises) are treated
as unconvertible and skipped like a float() failure. -/
def jAsQ : JVal → Option ℚ
  | .i n => some (n : ℚ)
  | .b true => some 1
  | .b false => some 0
  | _ => none

/-- First body key that is present and float-convertible. -/
def findHintQ (d : JVal) : List String → Option ℚ
  | [] => none
  | k :: rest =>
    if jHasKey d k then
      match jAsQ (jget d k) with
      | some q => some q
      | none => findHintQ d rest
    else findHintQ d rest

/-- get-retry-after of the source: Retry-After header, else second-valued
body hints, else millisecond body hints, else 0.7, clamped into
[0.2, 5.0] (seconds, modelled in ℚ). -/
def get_retry_after (hdr : Option Int) (body : Option JVal) : ℚ :=
  match hdr with
  | some sec => max (1/5) (min (sec : ℚ) 5)
  | none =>
    match body with
    | some d =>
      match findHintQ d ["retryAfter", "retry_after", "pollIntervalSec", "poll_interval_sec"] with
      | some q => max (1/5) (min q 5)
      | none =>
        match findHintQ d ["pollInMs", "poll_in_ms"] with
        | some ms => max (1/5) (min (ms / 1000) 5)
        | none => 7/10
    | none => 7/10

/-- Outcome of the polling phase: a terminal body, an early return on a
non-JSON success body, the AttributeError escape on a non-dict JSON body
(propagated to the route boundary in the source), or the deadline
timeout carrying the last-recorded error response. -/
inductive PollRes where
  | final (data : JVal) : PollRes
  | rawExit (body : String) : PollRes
  | attrError : PollRes
  | timeout (last : Option (Nat × String)) : PollRes

/-- The fetch poll loop of call-backend: while the wall clock is before
the deadline, fetch; 202 sleeps per Retry-After; an error status records
the last error and sleeps 0.7; a non-JSON success body returns raw; a
terminal body returns final; otherwise sleep per the body hint.  Past
the deadline the loop stops with the timeout outcome. -/
def pollLoop (fetch : Nat → FetchResp) (i : Nat) (now deadline : ℚ)
    (last : Option (Nat × String)) : PollRes :=
  if h : now < deadline then
    let r := fetch i
    if r.code = 202 then
      pollLoop fetch (i + 1) (now + get_retry_after r.retryAfterHdr none) deadline last
    else if 400 ≤ r.code then
      pollLoop fetch (i + 1) (now + 7/10) deadline (some (r.code, r.text))
    else
      match r.json with
      | none => .rawExit r.text
      | some data =>
        match data with
        | .obj kvs =>
          if isTerminalPoll (.obj kvs) then .final (.obj kvs)
          else
            pollLoop fetch (i + 1)
              (now + get_retry_after r.retryAfterHdr (some (.obj kvs))) deadline last
        | _ => .attrError
  else .timeout last
termination_by (⌈(deadline - now) * 5⌉).toNat
decreasing_by
  all_goals
    (have hkey : ∀ d n s : ℚ, n < d → 1/5 ≤ s →
        (⌈(d - (n + s)) * 5⌉).toNat < (⌈(d - n) * 5⌉).toNat := by
      intro d n s hnd hs
      have h1 : (0:ℚ) < (d - n) * 5 := by nlinarith
      have h2 : (d - (n + s)) * 5 ≤ (d - n) * 5 - 1 := by nlinarith
      have h3 : (⌈(d - (n + s)) * 5⌉ : ℤ) ≤ ⌈(d - n) * 5⌉ - 1 := by
        calc (⌈(d - (n + s)) * 5⌉ : ℤ)
            ≤ ⌈(d - n) * 5 - 1⌉ := Int.ceil_le_ceil h2
          _ = ⌈(d - n) * 5⌉ - 1 := by
              rw [show ((d - n) * 5 - 1 : ℚ) = (d - n) * 5 - (1:ℤ) by push_cast; ring]
              exact Int.ceil_sub_int _ 1
      have h4 : (0:ℤ) < ⌈(d - n) * 5⌉ := Int.ceil_pos.mpr h1
      omega
     have hra : ∀ (hdr : Option Int) (body : Option JVal), (1:ℚ)/5 ≤ get_retry_after hdr body := by
      intro hdr body
      unfold get_retry_after
      split
      · exact le_max_left _ _
      · split
        · split
          · exact le_max_left _ _
          · split
            · exact le_max_left _ _
            · norm_num
        · norm_num
     apply hkey _ _ _ h
     first
     | apply hra
     | norm_num)

/-! ### Concrete instances used by counterexamples and witnesses -/

/-- A JSON parser that never succeeds; the payloads below never reach it
(their question-answers values are already arrays). -/
def loadsNone : String → Option JVal := fun _ => none

/-- The user dict of validate on a payload carrying no user fields. -/
def emptyUserT : UserT := ⟨"", "", "", "", "", "", "live"⟩

/-- One normalized pair mapped positionally onto key k: label from the
catalog, empty answer. -/
def posQA (m : Mapping) (k : String) : QA :=
  ⟨k, qlabel m k, ""⟩

/-- A payload whose question-answers entry is a positional array of bare
string answers. -/
def mkPosPayload (vs : List String) : JVal :=
  .obj [("questionAnswers", .arr (vs.map JVal.s))]

/-- Keys of the normalized pairs of a validation result. -/
def qaKeysOf (r : Except VErr (UserT × List QA × Validation)) : List String :=
  match r with
  | .ok (_, qas, _) => qas.map QA.key
  | .error _ => []

/-- A one-question catalog. -/
def mapQ1 : Mapping :=
  ⟨false, ["q1_purchasing_for"],
   [("q1_purchasing_for", ⟨"Who are you purchasing for?", [], none⟩)]⟩

/-- Two items that both resolve to the q1 key. -/
def payloadDupQ1 : JVal := .obj [("questionAnswers", .arr
  [.obj [("question", .s "q1_purchasing_for"), ("answer", .s "Self")],
   .obj [("question", .s "q1_purchasing_for"), ("answer", .s "Others")]])]

/-- A catalog with required keys A and B. -/
def mapAB : Mapping :=
  ⟨false, ["A", "B"],
   [("A", ⟨"Question A", [], none⟩), ("B", ⟨"Question B", [], none⟩)]⟩

/-- Two items resolving to A followed by an unresolvable question beyond
the positional range. -/
def payloadAAunknown : JVal := .obj [("questionAnswers", .arr
  [.obj [("question", .s "A"), ("answer", .s "x")],
   .obj [("question", .s "A"), ("answer", .s "y")],
   .obj [("question", .s "unknownq"), ("answer", .s "z")]])]

/-- A payload answering only question A. -/
def payloadOnlyA : JVal := .obj [("questionAnswers", .arr
  [.obj [("question", .s "A"), ("answer", .s "x")]])]

/-- A catalog whose required sequence holds A and B while question C
exists outside the sequence. -/
def mapABplusC : Mapping :=
  ⟨false, ["A", "B"],
   [("A", ⟨"Question A", [], none⟩), ("B", ⟨"Question B", [], none⟩),
    ("C", ⟨"Question C", [], none⟩)]⟩

/-- Items in the order C, B, A. -/
def payloadCBA : JVal := .obj [("questionAnswers", .arr
  [.obj [("question", .s "C"), ("answer", .s "c")],
   .obj [("question", .s "B"), ("answer", .s "b")],
   .obj [("question", .s "A"), ("answer", .s "a")]])]

/-- A required-key sequence longer than the 9999 sort sentinel. -/
def mhBig : List String := (List.range 10001).map (fun i => "k" ++ toString i)

/-- A catalog with 10001 required keys whose questions table also holds
the out-of-sequence key X. -/
@[reducible] def mapBig : Mapping :=
  ⟨false, mhBig, [("X", ⟨"Question X", [], none⟩), ("k10000", ⟨"Question K", [], none⟩)]⟩

/-- An out-of-sequence item followed by the item of the 10001st required
key. -/
def payloadBig : JVal := .obj [("questionAnswers", .arr
  [.obj [("question", .s "X"), ("answer", .s "ax")],
   .obj [("question", .s "k10000"), ("answer", .s "ak")]])]

/-- A catalog with required keys A, B and C for the positional shape. -/
def mapABC : Mapping :=
  ⟨false, ["A", "B", "C"],
   [("A", ⟨"Question A", [], none⟩), ("B", ⟨"Question B", [], none⟩),
    ("C", ⟨"Question C", [], none⟩)]⟩

/-- The user metadata of the request used for the wire-level runs. -/
def userSakshi : UserT := ⟨"Sakshi", "s@x.com", "123", "2000-01-01", "", "", "live"⟩

/-- User dict whose full name holds the control character 0x01:
str.strip() keeps it (it is not whitespace), tostring emits it raw and
fromstring rejects the bytes. -/
def userCtl : UserT := ⟨"\x01", "", "", "", "", "", "live"⟩

/-- Its single normalized pair. -/
def qasSakshi : List QA := [⟨"q1_purchasing_for", "Who are you purchasing for?", "Self"⟩]

/-- A fetch endpoint answering 200 with a non-terminal JSON body forever. -/
def fetchProcessing : Nat → FetchResp :=
  fun _ => ⟨200, "\x7b\"status\": \"processing\"\x7d", some (.obj [("status", .s "processing")]), none⟩

/-- A fetch endpoint answering 500 forever. -/
def fetch500 : Nat → FetchResp :=
  fun _ => ⟨500, "busy", none, none⟩

/-- The non-terminal-response hypothesis of the poll-loop claim: every
fetch response either backs off (202), errors (at least 400), or carries
a parsed JSON dict that fails the terminal test. -/
def nonTerminalResp (r : FetchResp) : Prop :=
  r.code = 202 ∨ 400 ≤ r.code ∨
    (∃ kvs, r.json = some (.obj kvs) ∧ isTerminalPoll (.obj kvs) = false)

/-! ## Helper lemmas -/

/-- The element a dropWhile stops at fails the predicate. -/
theorem dropWhile_head_false {α : Type} {p : α → Bool} :
    ∀ {l : List α} {a : α} {rest : List α}, l.dropWhile p = a :: rest → p a = false := by
  intro l
  induction l with
  | nil => intro a rest h; cases h
  | cons x xs ih =>
    intro a rest h
    rw [List.dropWhile_cons] at h
    by_cases hx : p x
    · rw [if_pos hx] at h; exact ih h
    · rw [if_neg hx] at h
      cases h
      simpa using hx

/-- Python strip is idempotent. -/
theorem pstrip_idem (s : String) : pstrip (pstrip s) = pstrip s := by
  show (⟨List.rdropWhile pyIsSpace
          ((List.rdropWhile pyIsSpace (s.data.dropWhile pyIsSpace)).dropWhile pyIsSpace)⟩ : String)
      = ⟨List.rdropWhile pyIsSpace (s.data.dropWhile pyIsSpace)⟩
  have hdw : (List.rdropWhile pyIsSpace (s.data.dropWhile pyIsSpace)).dropWhile pyIsSpace
      = List.rdropWhile pyIsSpace (s.data.dropWhile pyIsSpace) := by
    cases hc : List.rdropWhile pyIsSpace (s.data.dropWhile pyIsSpace) with
    | nil => rfl
    | cons a t2 =>
      have hpre := List.rdropWhile_prefix pyIsSpace (s.data.dropWhile pyIsSpace)
      rw [hc] at hpre
      obtain ⟨t, ht⟩ := hpre
      have hl1 : s.data.dropWhile pyIsSpace = a :: (t2 ++ t) := by rw [← ht]; rfl
      have hpa : pyIsSpace a = false := dropWhile_head_false hl1
      rw [List.dropWhile_cons, hpa]
      simp
  rw [hdw, List.rdropWhile_idempotent]

/-- Strip fixes the output of the nonempty helper when the fallback is
already stripped. -/
theorem pstrip_nonempty_or (v fb : String) (hfb : pstrip fb = fb) :
    pstrip (nonempty_or v fb) = nonempty_or v fb := by
  unfold nonempty_or
  by_cases h : pstrip v = ""
  · simp only [h, if_pos, if_true, ite_true]
    simpa [h] using hfb
  · simp only [h, ite_false, if_false, if_neg]
    simpa [h] using pstrip_idem v

/-- The nonempty helper never returns the empty string when the fallback
is non-empty. -/
theorem nonempty_or_ne_empty (v fb : String) (hfb : fb ≠ "") :
    nonempty_or v fb ≠ "" := by
  unfold nonempty_or
  by_cases h : pstrip v = "" <;> simp [h, hfb]

/-- Unfolding equation of the backend text helper on a found node. -/
theorem btext_found {root : XmlElem} {t : String} {rest : List String} {node : XmlElem}
    (hf : xfind root t = some node) (hne : pstrip node.text ≠ "") :
    btext root (t :: rest) = pstrip node.text := by
  rw [btext, hf]
  simp [hne]

/-- Clean characters are XML characters. -/
theorem all_xmlChar_of_clean (l : List Char) (h : l.all xmlCleanChar = true) :
    l.all xmlChar = true := by
  rw [List.all_eq_true] at h ⊢
  intro c hc
  have hco := h c hc
  rw [xmlCleanChar, Bool.and_eq_true] at hco
  exact hco.1

/-- Clean characters are no carriage returns. -/
theorem ne_cr_of_clean (l : List Char) (h : l.all xmlCleanChar = true) :
    ∀ c ∈ l, c ≠ '\r' := by
  intro c hc he
  have hco := List.all_eq_true.mp h c hc
  rw [xmlCleanChar, Bool.and_eq_true] at hco
  subst he
  exact absurd hco.2 (by decide)

/-- Line-ending normalization fixes a text without carriage returns. -/
theorem xmlNormEol_eq_self (l : List Char) (h : ∀ c ∈ l, c ≠ '\r') :
    xmlNormEol l = l := by
  induction l with
  | nil => rfl
  | cons c rest ih =>
    have hc : c ≠ '\r' := h c (List.mem_cons_self c rest)
    rw [xmlNormEol.eq_def]
    split
    · rename_i heq
      cases heq
    · rename_i heq
      injection heq with h1 h2
      exact absurd h1 hc
    · rename_i heq
      injection heq with h1 h2
      exact absurd h1 hc
    · rename_i heq
      injection heq with h1 h2
      subst h1
      subst h2
      rw [ih (fun d hd => h d (List.mem_cons_of_mem _ hd))]

/-- On a rendered-request-shaped tree whose texts hold only clean
characters, the byte-composed handler agrees with the tree-level one:
the serialization is well formed and parses back to the same tree. -/
theorem wire_reject_of_clean (fn em ph rk dt qa rid : String) (m : List String)
    (hcl : xmlTextsAll xmlCleanChar (XmlElem.mk "Request" ""
      [XmlElem.mk "full_name" fn [], XmlElem.mk "email" em [], XmlElem.mk "phone_number" ph [],
       XmlElem.mk "result_key" rk [], XmlElem.mk "date" dt [],
       XmlElem.mk "questionAnswers" qa []]) = true)
    (hreject : createRequest (XmlElem.mk "Request" ""
      [XmlElem.mk "full_name" fn [], XmlElem.mk "email" em [], XmlElem.mk "phone_number" ph [],
       XmlElem.mk "result_key" rk [], XmlElem.mk "date" dt [],
       XmlElem.mk "questionAnswers" qa []]) rid = .missingFields m) :
    createRequestWire (XmlElem.mk "Request" ""
      [XmlElem.mk "full_name" fn [], XmlElem.mk "email" em [], XmlElem.mk "phone_number" ph [],
       XmlElem.mk "result_key" rk [], XmlElem.mk "date" dt [],
       XmlElem.mk "questionAnswers" qa []]) rid = .missingFields m := by
  simp only [xmlTextsAll, xmlTextsAllList, Bool.and_true, Bool.and_eq_true] at hcl
  obtain ⟨-, hfn, hem, hph, hrk, hdt, hqa⟩ := hcl
  have hnorm : xmlNormalize (XmlElem.mk "Request" ""
      [XmlElem.mk "full_name" fn [], XmlElem.mk "email" em [], XmlElem.mk "phone_number" ph [],
       XmlElem.mk "result_key" rk [], XmlElem.mk "date" dt [],
       XmlElem.mk "questionAnswers" qa []]) = XmlElem.mk "Request" ""
      [XmlElem.mk "full_name" fn [], XmlElem.mk "email" em [], XmlElem.mk "phone_number" ph [],
       XmlElem.mk "result_key" rk [], XmlElem.mk "date" dt [],
       XmlElem.mk "questionAnswers" qa []] := by
    simp only [xmlNormalize, xmlNormalizeList]
    rw [xmlNormEol_eq_self _ (ne_cr_of_clean _ hfn), xmlNormEol_eq_self _ (ne_cr_of_clean _ hem),
        xmlNormEol_eq_self _ (ne_cr_of_clean _ hph), xmlNormEol_eq_self _ (ne_cr_of_clean _ hrk),
        xmlNormEol_eq_self _ (ne_cr_of_clean _ hdt), xmlNormEol_eq_self _ (ne_cr_of_clean _ hqa)]
    rfl
  have hwf : xmlWellFormed (XmlElem.mk "Request" ""
      [XmlElem.mk "full_name" fn [], XmlElem.mk "email" em [], XmlElem.mk "phone_number" ph [],
       XmlElem.mk "result_key" rk [], XmlElem.mk "date" dt [],
       XmlElem.mk "questionAnswers" qa []]) = true := by
    rw [xmlWellFormed]
    rw [show xmlTagsOk (XmlElem.mk "Request" ""
      [XmlElem.mk "full_name" fn [], XmlElem.mk "email" em [], XmlElem.mk "phone_number" ph [],
       XmlElem.mk "result_key" rk [], XmlElem.mk "date" dt [],
       XmlElem.mk "questionAnswers" qa []]) = true from rfl]
    rw [Bool.true_and]
    simp only [xmlTextsAll, xmlTextsAllList, Bool.and_true, Bool.and_eq_true]
    exact ⟨rfl, all_xmlChar_of_clean _ hfn, all_xmlChar_of_clean _ hem,
           all_xmlChar_of_clean _ hph, all_xmlChar_of_clean _ hrk,
           all_xmlChar_of_clean _ hdt, all_xmlChar_of_clean _ hqa⟩
  rw [createRequestWire, if_pos hwf, hnorm]
  exact hreject

/-! ## Claims -/

/-- C1 (code_bug): the spec asserts that rendering a NormalizedRequest to
XML and parsing it with the bundled backend createRequest recovers the
same UserMeta fields and ordered QA pairs.  The adapter docstring claims
the emitted XML is the shape the backend reads, but on the concrete
normalized request below (full name Sakshi, email, phone, birth date, one
QA pair) the backend rejects the adapter-rendered tree with 422
missing-fields [request_id]: the adapter emits result_key, date and a
JSON-text questionAnswers element, while the backend requires request_id
and reads date_of_birth and question_answers/qa elements, so nothing is
recovered. -/
theorem c1_roundtrip_rejected_at_failing_input :
    createRequest (xml_superset userSakshi qasSakshi "20250101-120000" "abc123").1 "resp-1" =
      .missingFields ["request_id"] := rfl

/-- Tree-level facts about every rendered request: the six child
elements, the non-empty name and email defaults, no request_id element,
and the tree-level handler's missing-request-id rejection. -/
theorem rendered_tree_shape_backend_reject
    (u : UserT) (qas : List QA) (now rand6 rid : String) :
    ((xml_superset u qas now rand6).1.children.map XmlElem.tag =
      ["full_name", "email", "phone_number", "result_key", "date", "questionAnswers"]) ∧
    btext (xml_superset u qas now rand6).1 ["full_name", "FullName"] =
      nonempty_or u.full_name "Unknown User" ∧
    btext (xml_superset u qas now rand6).1 ["full_name", "FullName"] ≠ "" ∧
    btext (xml_superset u qas now rand6).1 ["email", "Email"] ≠ "" ∧
    btext (xml_superset u qas now rand6).1 ["request_id", "RequestId", "RequestID"] = "" ∧
    createRequest (xml_superset u qas now rand6).1 rid = .missingFields ["request_id"] := by
  have hfb1 : pstrip (nonempty_or u.full_name "Unknown User")
      = nonempty_or u.full_name "Unknown User" := pstrip_nonempty_or _ _ rfl
  have hfb2 : pstrip (nonempty_or u.email "unknown@example.invalid")
      = nonempty_or u.email "unknown@example.invalid" := pstrip_nonempty_or _ _ rfl
  have hne1 : nonempty_or u.full_name "Unknown User" ≠ "" :=
    nonempty_or_ne_empty _ _ (by decide)
  have hne2 : nonempty_or u.email "unknown@example.invalid" ≠ "" :=
    nonempty_or_ne_empty _ _ (by decide)
  have hx1 : xfind (xml_superset u qas now rand6).1 "full_name" =
      some (.mk "full_name" (nonempty_or u.full_name "Unknown User") []) := rfl
  have hx2 : xfind (xml_superset u qas now rand6).1 "email" =
      some (.mk "email" (nonempty_or u.email "unknown@example.invalid") []) := rfl
  have hfn : btext (xml_superset u qas now rand6).1 ["full_name", "FullName"] =
      nonempty_or u.full_name "Unknown User" := by
    rw [btext_found hx1 (by
      show pstrip (nonempty_or u.full_name "Unknown User") ≠ ""
      rw [hfb1]; exact hne1)]
    exact hfb1
  have hem : btext (xml_superset u qas now rand6).1 ["email", "Email"] =
      nonempty_or u.email "unknown@example.invalid" := by
    rw [btext_found hx2 (by
      show pstrip (nonempty_or u.email "unknown@example.invalid") ≠ ""
      rw [hfb2]; exact hne2)]
    exact hfb2
  have hrid : btext (xml_superset u qas now rand6).1 ["request_id", "RequestId", "RequestID"]
      = "" := rfl
  refine ⟨rfl, hfn, by rw [hfn]; exact hne1, by rw [hem]; exact hne2, hrid, ?_⟩
  unfold createRequest
  simp only [hfn, hem, hrid]
  simp [hne1, hne2]

set_option maxRecDepth 100000

/-- C2 (counterexample): a full name holding the control character 0x01
(reachable through JSON unicode escapes, kept by str.strip) survives into
the rendered full_name text; tostring emits it raw, the backend's
fromstring raises, and the composed handler answers the 422 mapping-error
response — not the missing-request-id rejection the claim asserts for
every input. -/
theorem c2_counterexample_control_char_mapping_error :
    createRequestWire (xml_superset userCtl [] "20250101-120000" "abc123").1 "resp-1" =
      .mappingError ∧
    createRequestWire (xml_superset userCtl [] "20250101-120000" "abc123").1 "resp-1" ≠
      .missingFields ["request_id"] := by
  exact ⟨by decide, by decide⟩

/-- C2 (amended): for every user dict and QA list (any timestamp, uuid
suffix and backend response id), the adapter XML carries exactly the six
elements full_name, email, phone_number, result_key, date and
questionAnswers (no request_id element) and its full_name and email
texts are non-empty after the defaults; and whenever every rendered text
holds only clean XML characters (tab, LF, or characters from 0x20 up —
no control characters smuggled through JSON escapes and no carriage
returns), the serialized bytes parse back and the byte-composed backend
handler returns the 422 missing-fields response with missing exactly
[request_id] — it never stores a result nor returns a response id. -/
theorem c2_amended_missing_request_id_when_serializable
    (u : UserT) (qas : List QA) (now rand6 rid : String)
    (hcl : xmlTextsAll xmlCleanChar (xml_superset u qas now rand6).1 = true) :
    ((xml_superset u qas now rand6).1.children.map XmlElem.tag =
      ["full_name", "email", "phone_number", "result_key", "date", "questionAnswers"]) ∧
    btext (xml_superset u qas now rand6).1 ["full_name", "FullName"] =
      nonempty_or u.full_name "Unknown User" ∧
    btext (xml_superset u qas now rand6).1 ["full_name", "FullName"] ≠ "" ∧
    btext (xml_superset u qas now rand6).1 ["email", "Email"] ≠ "" ∧
    btext (xml_superset u qas now rand6).1 ["request_id", "RequestId", "RequestID"] = "" ∧
    createRequestWire (xml_superset u qas now rand6).1 rid = .missingFields ["request_id"] := by
  obtain ⟨h1, h2, h3, h4, h5, h6⟩ := rendered_tree_shape_backend_reject u qas now rand6 rid
  refine ⟨h1, h2, h3, h4, h5, ?_⟩
  exact wire_reject_of_clean (nonempty_or u.full_name "Unknown User")
    (nonempty_or u.email "unknown@example.invalid") (nonempty_or u.phone_number "N/A")
    ((xml_superset u qas now rand6).2) (nonempty_or u.birth_date "1970-01-01")
    (jsonDumpsQA qas) rid ["request_id"] hcl h6

/-- C2 witness: the concrete Sakshi request renders only clean ASCII
texts, and the byte-composed backend rejects it with missing exactly
the request_id. -/
theorem c2_amended_witness :
    createRequestWire (xml_superset userSakshi qasSakshi "20250101-120000" "abc123").1 "resp-1" =
      .missingFields ["request_id"] :=
  (c2_amended_missing_request_id_when_serializable userSakshi qasSakshi "20250101-120000"
    "abc123" "resp-1" (by decide)).2.2.2.2.2

/-- C3 (counterexample): the renderer is not deterministic across
invocations on identical input: the uuid4 suffix drawn inside
gen-result-key differs between calls, and two draws (aaaaaa vs bbbbbb)
over the same normalized request and timestamp give different bytes. -/
theorem c3_counterexample_two_invocations_differ :
    xmlToString (xml_superset userSakshi qasSakshi "20250101-120000" "aaaaaa").1 ≠
      xmlToString (xml_superset userSakshi qasSakshi "20250101-120000" "bbbbbb").1 := by
  decide

/-- C3 (amended): rendering is a pure function of the normalized request
together with the drawn timestamp and uuid suffix, and two invocations
differing only in the drawn suffix produce byte-identical output outside
the result_key element: the serialized trees agree once the result_key
text is blanked. -/
theorem c3_amended_deterministic_up_to_result_key
    (u : UserT) (qas : List QA) (now r1 r2 : String) :
    xmlToString (maskResultKey (xml_superset u qas now r1).1) =
      xmlToString (maskResultKey (xml_superset u qas now r2).1) := rfl

/-- C6 (confirmed): the result key leaving the XML builder is never empty:
it always has the rk- prefix, the supplied result-key/request-id (else the
timestamp) as base, and the random suffix. -/
theorem c6_result_key_never_empty (u : UserT) (qas : List QA) (now rand6 : String) :
    (xml_superset u qas now rand6).2 ≠ "" ∧
    (xml_superset u qas now rand6).2 =
      "rk-" ++
        (let inc := pstrip (if u.result_key ≠ "" then u.result_key
                            else if u.request_id ≠ "" then u.request_id else "")
         if inc = "" then pstrip now else inc) ++ "-" ++ rand6 := by
  have hkey : (xml_superset u qas now rand6).2 =
      gen_result_key
        (pstrip (if u.result_key ≠ "" then u.result_key
                 else if u.request_id ≠ "" then u.request_id else "")) now rand6 := rfl
  constructor
  · rw [hkey]
    unfold gen_result_key
    intro h
    have h2 := congrArg String.data h
    simp [String.data_append] at h2
  · rw [hkey]
    unfold gen_result_key
    by_cases h : pstrip (if u.result_key ≠ "" then u.result_key
        else if u.request_id ≠ "" then u.request_id else "") = ""
    · simp only [h, if_pos, ite_true]
    · simp only [h, if_neg, ite_false]
      rw [pstrip_idem]

/-- extractLoop raises only the unknown-question error. -/
theorem extractLoop_ne_badQaType (ap : Bool) (m : Mapping) :
    ∀ (items : List JVal) (idx : Nat), extractLoop ap m items idx ≠ .error .badQaType := by
  intro items
  induction items with
  | nil => intro idx h; cases h
  | cons item rest ih =>
    intro idx h
    rw [extractLoop] at h
    rcases hk : (match (if (extractQA item).1 ≠ "" then resolve_q_key m (extractQA item).1
                       else none) with
                 | some k => some k
                 | none => m.must_have_keys[idx]?) with _ | k
    · rw [hk] at h
      by_cases hu : (m.allow_unknown || ap) = true
      · rw [if_pos hu] at h; exact ih (idx + 1) h
      · rw [if_neg hu] at h; cases h
    · rw [hk] at h
      rcases hr : extractLoop ap m rest (idx + 1) with e | tail
      · rw [hr] at h
        cases h
        exact ih (idx + 1) hr
      · rw [hr] at h; cases h

/-- C10 (confirmed): the question-answer coercion is total — for every
input value and every JSON parser it returns an array — and therefore
the ValueError branch of validate guarding a non-list coercion result
(the bad-type error) is unreachable: validate never returns it. -/
theorem c10_qa_coercion_total_bad_type_unreachable (loads : String → Option JVal) :
    (∀ v : JVal, ∃ l, ensure_list_qas loads v = .arr l) ∧
    (∀ (ap : Bool) (p : JVal) (m : Mapping), validate loads ap p m ≠ .error .badQaType) := by
  have htotal : ∀ v : JVal, ∃ l, ensure_list_qas loads v = .arr l := by
    intro v
    unfold ensure_list_qas
    dsimp only
    repeat' split
    all_goals exact ⟨_, rfl⟩
  refine ⟨htotal, ?_⟩
  intro ap p m h
  obtain ⟨l, hl⟩ := htotal
    (pyOrJ (jget p "questionAnswers") (pyOrJ (jget p "question_answers") (.arr [])))
  unfold validate at h
  have hq : qaItems loads p = .arr l := hl
  rw [hq] at h
  dsimp only at h
  rcases hr : extractLoop ap m l 0 with e | pre
  · rw [hr] at h
    dsimp only at h
    cases h
    exact extractLoop_ne_badQaType ap m l 0 hr
  · rw [hr] at h
    dsimp only at h
    by_cases hg : (!(missingOf m pre).isEmpty && !ap) = true
    · rw [if_pos hg] at h; cases h
    · rw [if_neg hg] at h; cases h

/-- C4 (counterexample): two input items both resolving to the q1 key
yield a normalized request whose canonical keys are not unique — the
validator appends one pair per resolvable item and never deduplicates. -/
theorem c4_counterexample_duplicate_keys :
    validate loadsNone true payloadDupQ1 mapQ1 =
      .ok (emptyUserT,
           [⟨"q1_purchasing_for", "Who are you purchasing for?", "Self"⟩,
            ⟨"q1_purchasing_for", "Who are you purchasing for?", "Others"⟩], ⟨[]⟩) ∧
    ¬ (([(⟨"q1_purchasing_for", "Who are you purchasing for?", "Self"⟩ : QA),
         ⟨"q1_purchasing_for", "Who are you purchasing for?", "Others"⟩]).map QA.key).Nodup :=
  ⟨rfl, by decide⟩

/-- C4 (amended): canonical keys are unique in the normalized request
provided the input items resolve to pairwise-distinct canonical keys;
the sort is a permutation, so distinctness of the extracted keys carries
to the final ordered list. -/
theorem c4_amended_keys_unique_when_items_resolve_distinctly
    (loads : String → Option JVal) (ap : Bool) (p : JVal) (m : Mapping)
    (items : List JVal) (pre : List QA) (u : UserT) (qas : List QA) (val : Validation)
    (hitems : qaItems loads p = .arr items)
    (hpre : extractLoop ap m items 0 = .ok pre)
    (hnd : (pre.map QA.key).Nodup)
    (hok : validate loads ap p m = .ok (u, qas, val)) :
    (qas.map QA.key).Nodup := by
  have hqas : qas = sortQas m pre := by
    unfold validate at hok
    rw [hitems] at hok
    dsimp only at hok
    rw [hpre] at hok
    dsimp only at hok
    by_cases hg : (!(missingOf m pre).isEmpty && !ap) = true
    · rw [if_pos hg] at hok; cases hok
    · rw [if_neg hg] at hok
      simp only [Except.ok.injEq, Prod.mk.injEq] at hok
      exact hok.2.1.symm
  rw [hqas]
  have hperm : (sortQas m pre).Perm pre := List.perm_insertionSort _ _
  exact ((hperm.map QA.key).nodup_iff).mpr hnd

/-- C4 witness: a single-item payload resolving to key A satisfies the
distinctness hypothesis and its validated keys are unique. -/
theorem c4_amended_witness :
    validate loadsNone true payloadOnlyA mapAB =
      .ok (emptyUserT, [⟨"A", "Question A", "x"⟩], ⟨["B"]⟩) ∧
    (([(⟨"A", "Question A", "x"⟩ : QA)]).map QA.key).Nodup :=
  ⟨rfl,
   c4_amended_keys_unique_when_items_resolve_distinctly loadsNone true payloadOnlyA mapAB
     [JVal.obj [("question", .s "A"), ("answer", .s "x")]]
     [⟨"A", "Question A", "x"⟩] emptyUserT [⟨"A", "Question A", "x"⟩] ⟨["B"]⟩
     rfl rfl (by decide) rfl⟩

/-- C5 (counterexample): in strict mode (partial acceptance off, unknowns
disallowed) with required keys A and B and items A, A, unknownq, the
missing set would be [B] and strict mode is on, yet validation does not
fail with the mandatory-missing error: the unknown-question error
preempts it. -/
theorem c5_counterexample_unknown_preempts_mandatory_missing :
    validate loadsNone false payloadAAunknown mapAB = .error (.unknownQuestion "unknownq") ∧
    (VErr.unknownQuestion "unknownq" ≠ .mandatoryMissing ["B"]) :=
  ⟨rfl, by decide⟩

/-- C5 (amended): provided the per-item phase raises no unknown-question
error, validation fails with the mandatory-missing error carrying exactly
the must-have keys absent from the resolved pairs if and only if that
set is non-empty and strict mode is on; in permissive mode the same set
is reported in the validation result. -/
theorem c5_amended_missing_gate (loads : String → Option JVal) (ap : Bool) (p : JVal)
    (m : Mapping) (items : List JVal) (pre : List QA)
    (hitems : qaItems loads p = .arr items)
    (hpre : extractLoop ap m items 0 = .ok pre) :
    (validate loads ap p m = .error (.mandatoryMissing (missingOf m pre)) ↔
      (missingOf m pre ≠ [] ∧ ap = false)) ∧
    (∀ (u : UserT) (qas : List QA) (val : Validation),
      validate loads ap p m = .ok (u, qas, val) → val.missing_keys = missingOf m pre) := by
  unfold validate
  rw [hitems]
  dsimp only
  rw [hpre]
  dsimp only
  constructor
  · constructor
    · intro h
      by_cases hg : (!(missingOf m pre).isEmpty && !ap) = true
      · simp only [Bool.and_eq_true, Bool.not_eq_true', List.isEmpty_eq_false] at hg
        obtain ⟨h1, h2⟩ := hg
        exact ⟨by simpa [List.isEmpty_iff] using h1, h2⟩
      · rw [if_neg hg] at h; cases h
    · rintro ⟨hmne, hap⟩
      have hg : (!(missingOf m pre).isEmpty && !ap) = true := by
        simp [hap, List.isEmpty_iff, hmne]
      rw [if_pos hg]
  · intro u qas val h
    by_cases hg : (!(missingOf m pre).isEmpty && !ap) = true
    · rw [if_pos hg] at h; cases h
    · rw [if_neg hg] at h
      simp only [Except.ok.injEq, Prod.mk.injEq] at h
      rw [← h.2.2]

/-- Every sleep of the poll loop lasts at least one fifth of a second. -/
theorem retry_after_ge_fifth (hdr : Option Int) (body : Option JVal) :
    1/5 ≤ get_retry_after hdr body := by
  unfold get_retry_after
  split
  · exact le_max_left _ _
  · split
    · split
      · exact le_max_left _ _
      · split
        · exact le_max_left _ _
        · norm_num
    · norm_num

/-- Sleeping at least one fifth of a second strictly shrinks the poll
measure. -/
theorem poll_measure_lt {now deadline s : ℚ} (h : now < deadline) (hs : 1/5 ≤ s) :
    (⌈(deadline - (now + s)) * 5⌉).toNat < (⌈(deadline - now) * 5⌉).toNat := by
  have h1 : (0:ℚ) < (deadline - now) * 5 := by nlinarith
  have h2 : (deadline - (now + s)) * 5 ≤ (deadline - now) * 5 - 1 := by nlinarith
  have h3 : (⌈(deadline - (now + s)) * 5⌉ : ℤ) ≤ ⌈(deadline - now) * 5⌉ - 1 := by
    calc (⌈(deadline - (now + s)) * 5⌉ : ℤ)
        ≤ ⌈(deadline - now) * 5 - 1⌉ := Int.ceil_le_ceil h2
      _ = ⌈(deadline - now) * 5⌉ - 1 := by
          rw [show ((deadline - now) * 5 - 1 : ℚ) = (deadline - now) * 5 - (1:ℤ) by push_cast; ring]
          exact Int.ceil_sub_int _ 1
  have h4 : (0:ℤ) < ⌈(deadline - now) * 5⌉ := Int.ceil_pos.mpr h1
  omega

/-- Past the deadline the loop stops with the timeout outcome. -/
theorem pollLoop_past (fetch : Nat → FetchResp) (i : Nat) {now deadline : ℚ}
    (last : Option (Nat × String)) (h : ¬ now < deadline) :
    pollLoop fetch i now deadline last = .timeout last := by
  rw [pollLoop, dif_neg h]

/-- Stepping over a 202 response. -/
theorem pollLoop_step_202 (fetch : Nat → FetchResp) (i : Nat) {now deadline : ℚ}
    (last : Option (Nat × String)) (h : now < deadline) (hcode : (fetch i).code = 202) :
    pollLoop fetch i now deadline last =
      pollLoop fetch (i + 1) (now + get_retry_after (fetch i).retryAfterHdr none)
        deadline last := by
  rw [pollLoop, dif_pos h]
  dsimp only
  rw [if_pos hcode]

/-- Stepping over an error response records it as the last error. -/
theorem pollLoop_step_err (fetch : Nat → FetchResp) (i : Nat) {now deadline : ℚ}
    (last : Option (Nat × String)) (h : now < deadline) (hcode : (fetch i).code ≠ 202)
    (herr : 400 ≤ (fetch i).code) :
    pollLoop fetch i now deadline last =
      pollLoop fetch (i + 1) (now + 7/10) deadline
        (some ((fetch i).code, (fetch i).text)) := by
  rw [pollLoop, dif_pos h]
  dsimp only
  rw [if_neg hcode, if_pos herr]

/-- Stepping over a successful non-terminal JSON response leaves the
recorded last error unchanged. -/
theorem pollLoop_step_nonterminal (fetch : Nat → FetchResp) (i : Nat) {now deadline : ℚ}
    (last : Option (Nat × String)) (h : now < deadline) (hcode : (fetch i).code ≠ 202)
    (herr : ¬ 400 ≤ (fetch i).code) {kvs : List (String × JVal)}
    (hjson : (fetch i).json = some (.obj kvs)) (hterm : isTerminalPoll (.obj kvs) = false) :
    pollLoop fetch i now deadline last =
      pollLoop fetch (i + 1)
        (now + get_retry_after (fetch i).retryAfterHdr (some (.obj kvs))) deadline last := by
  rw [pollLoop, dif_pos h]
  dsimp only
  rw [if_neg hcode, if_neg herr, hjson]
  dsimp only
  rw [hterm]
  simp

/-- C8 (counterexample): a fetch endpoint that keeps answering 200 with
the non-terminal JSON body status processing makes the poll loop time
out with no payload attached (last stays none): the timeout outcome does
not carry the last-seen fetch payload, because the loop records a last
value only for responses with status at least 400. -/
theorem c8_counterexample_timeout_without_payload :
    pollLoop fetchProcessing 0 0 1 none = .timeout none := by
  have hjson : ∀ j, (fetchProcessing j).json =
      some (.obj [("status", JVal.s "processing")]) := fun _ => rfl
  have hterm : isTerminalPoll (.obj [("status", JVal.s "processing")]) = false := rfl
  have hra : ∀ j, get_retry_after (fetchProcessing j).retryAfterHdr
      (some (.obj [("status", JVal.s "processing")])) = 7/10 := fun _ => rfl
  rw [pollLoop_step_nonterminal fetchProcessing 0 none (by norm_num) (by decide) (by decide)
      (hjson 0) hterm, hra 0]
  rw [pollLoop_step_nonterminal fetchProcessing 1 none (by norm_num) (by decide) (by decide)
      (hjson 1) hterm, hra 1]
  exact pollLoop_past fetchProcessing 2 none (by norm_num)

/-- C8 (amended): for every stream of fetch responses none of which is
terminal (each either backs off with 202, fails with status at least
400, or carries a non-terminal JSON dict), the poll loop always halts
once the deadline passes and returns the timeout outcome; the value it
attaches is the last recorded error response (none when no fetch failed),
not the last-seen payload in general. -/
theorem c8_amended_halts_with_timeout (fetch : Nat → FetchResp) (deadline : ℚ)
    (hf : ∀ j, nonTerminalResp (fetch j)) :
    ∀ (i : Nat) (now : ℚ) (last : Option (Nat × String)),
      ∃ l, pollLoop fetch i now deadline last = .timeout l := by
  suffices H : ∀ (n : Nat) (i : Nat) (now : ℚ) (last : Option (Nat × String)),
      (⌈(deadline - now) * 5⌉).toNat ≤ n →
      ∃ l, pollLoop fetch i now deadline last = .timeout l by
    intro i now last
    exact H _ i now last le_rfl
  intro n
  induction n with
  | zero =>
    intro i now last hn
    have hnd : ¬ now < deadline := by
      intro hlt
      have h1 : (0:ℚ) < (deadline - now) * 5 := by nlinarith
      have h2 : (0:ℤ) < ⌈(deadline - now) * 5⌉ := Int.ceil_pos.mpr h1
      omega
    exact ⟨last, pollLoop_past fetch i last hnd⟩
  | succ n ih =>
    intro i now last hn
    by_cases h : now < deadline
    · by_cases hc : (fetch i).code = 202
      · rw [pollLoop_step_202 fetch i last h hc]
        apply ih
        have := poll_measure_lt h (retry_after_ge_fifth (fetch i).retryAfterHdr none)
        omega
      · by_cases he : 400 ≤ (fetch i).code
        · rw [pollLoop_step_err fetch i last h hc he]
          apply ih
          have := poll_measure_lt h (show (1:ℚ)/5 ≤ 7/10 by norm_num)
          omega
        · rcases hf i with h202 | herr | ⟨kvs, hjson, hterm⟩
          · exact absurd h202 hc
          · exact absurd herr he
          · rw [pollLoop_step_nonterminal fetch i last h hc he hjson hterm]
            apply ih
            have := poll_measure_lt h
              (retry_after_ge_fifth (fetch i).retryAfterHdr (some (.obj kvs)))
            omega
    · exact ⟨last, pollLoop_past fetch i last h⟩

/-- C8 witness: the constant 500 stream is non-terminal and the loop
returns a timeout outcome on it. -/
theorem c8_amended_witness :
    (∀ j, nonTerminalResp (fetch500 j)) ∧
    (∃ l, pollLoop fetch500 0 0 1 none = .timeout l) := by
  have h5 : ∀ j, nonTerminalResp (fetch500 j) := fun _ => Or.inr (Or.inl (by norm_num [fetch500]))
  exact ⟨h5, c8_amended_halts_with_timeout fetch500 1 h5 0 0 none⟩

/-- A key outside the sequence has no last index. -/
theorem lastIdx_none_of_not_mem (mh : List String) (k : String) (hk : k ∉ mh) :
    lastIdx mh k = none := by
  induction mh with
  | nil => rfl
  | cons a t ih =>
    rw [lastIdx, ih (fun h => hk (List.mem_cons_of_mem a h))]
    rw [if_neg (fun h => hk (List.mem_cons.mpr (Or.inl h.symm)))]

/-- Keys outside the sequence sort with the 9999 sentinel. -/
theorem pyOrderGet_not_mem (mh : List String) (k : String) (hk : k ∉ mh) :
    pyOrderGet mh k = 9999 := by
  unfold pyOrderGet
  rw [lastIdx_none_of_not_mem mh k hk]

/-- On a duplicate-free sequence the last index of the i-th key is i. -/
theorem lastIdx_getElem (mh : List String) (hnd : mh.Nodup) (i : Nat) (hi : i < mh.length) :
    lastIdx mh mh[i] = some i := by
  induction mh generalizing i with
  | nil => simp at hi
  | cons a t ih =>
    obtain ⟨ha, ht⟩ := List.nodup_cons.mp hnd
    cases i with
    | zero =>
      rw [lastIdx]
      simp only [List.getElem_cons_zero]
      rw [lastIdx_none_of_not_mem t a ha]
      simp
    | succ j =>
      have hj : j < t.length := by simpa using hi
      rw [lastIdx]
      simp only [List.getElem_cons_succ]
      rw [ih ht j hj]

/-- On a duplicate-free sequence the sort key of the i-th key is i. -/
theorem pyOrderGet_getElem (mh : List String) (hnd : mh.Nodup) (i : Nat)
    (hi : i < mh.length) : pyOrderGet mh mh[i] = i := by
  unfold pyOrderGet
  rw [lastIdx_getElem mh hnd i hi]

/-- A key of the sequence has a last index below the length. -/
theorem lastIdx_lt_length (mh : List String) (k : String) (hk : k ∈ mh) :
    ∃ i, lastIdx mh k = some i ∧ i < mh.length := by
  induction mh with
  | nil => simp at hk
  | cons a t ih =>
    by_cases hmem : k ∈ t
    · obtain ⟨i, h1, h2⟩ := ih hmem
      exact ⟨i + 1, by rw [lastIdx, h1], by simpa using h2⟩
    · have hak : a = k := by
        rcases List.mem_cons.mp hk with h | h
        · exact h.symm
        · exact absurd h hmem
      exact ⟨0, by rw [lastIdx, lastIdx_none_of_not_mem t k hmem, if_pos hak], by simp⟩

/-- A key of the sequence sorts below the sequence length. -/
theorem pyOrderGet_lt_of_mem (mh : List String) (k : String) (hk : k ∈ mh) :
    pyOrderGet mh k < mh.length := by
  unfold pyOrderGet
  obtain ⟨i, h1, h2⟩ := lastIdx_lt_length mh k hk
  rw [h1]
  exact h2

/-- The question-answers items of a positional payload. -/
theorem qaItems_pos (loads : String → Option JVal) (vs : List String) :
    qaItems loads (mkPosPayload vs) = .arr (vs.map JVal.s) := by
  cases vs with
  | nil => rfl
  | cons v t => rfl

/-- Bare string items resolve positionally into the must-have keys with
their labels attached and empty answers; excess items are skipped. -/
theorem extractLoop_bare (m : Mapping) :
    ∀ (ws : List String) (idx : Nat),
      extractLoop true m (ws.map JVal.s) idx =
        .ok (((m.must_have_keys.drop idx).take ws.length).map (posQA m)) := by
  intro ws
  induction ws with
  | nil => intro idx; simp [extractLoop]
  | cons w t ih =>
    intro idx
    rw [List.map_cons, extractLoop]
    have hqa : extractQA (JVal.s w) = ("", "") := rfl
    rw [hqa]
    dsimp only
    rw [if_neg (by simp : ¬ ("" : String) ≠ "")]
    have hans : ∀ k, normalize_answer m k (normalize_freeform k "") = "" := fun _ => rfl
    by_cases hidx : idx < m.must_have_keys.length
    · rw [List.getElem?_eq_getElem hidx]
      dsimp only
      rw [ih (idx + 1)]
      dsimp only
      rw [List.drop_eq_getElem_cons hidx]
      simp only [List.length_cons, List.take_succ_cons, List.map_cons]
      rw [hans]
      rfl
    · rw [List.getElem?_eq_none (le_of_not_lt hidx)]
      dsimp only
      rw [if_pos (by simp : (m.allow_unknown || true) = true)]
      rw [ih (idx + 1)]
      rw [List.drop_eq_nil_of_le (le_of_not_lt hidx),
          List.drop_eq_nil_of_le (by omega : m.must_have_keys.length ≤ idx + 1)]
      simp

/-- Missing keys of a positional extraction: the untouched tail of the
sequence. -/
theorem missingOf_pos (m : Mapping) (hnd : m.must_have_keys.Nodup) (n : Nat) :
    missingOf m ((m.must_have_keys.take n).map (posQA m)) = m.must_have_keys.drop n := by
  unfold missingOf
  have hkeys : ((m.must_have_keys.take n).map (posQA m)).map QA.key
      = m.must_have_keys.take n := by
    rw [List.map_map]
    have hcomp : QA.key ∘ posQA m = id := funext (fun _ => rfl)
    rw [hcomp, List.map_id]
  rw [hkeys]
  have key : ∀ (T D : List String), (T ++ D).Nodup →
      (T ++ D).filter (fun k => !T.contains k) = D := by
    intro T D hnd2
    rw [List.filter_append]
    have h1 : T.filter (fun k => !T.contains k) = [] := by
      rw [List.filter_eq_nil_iff]
      intro a ha
      simp [ha]
    have h2 : D.filter (fun k => !T.contains k) = D := by
      rw [List.filter_eq_self]
      intro a ha
      have haT : a ∉ T := by
        rw [List.nodup_append] at hnd2
        exact fun hm => hnd2.2.2 hm ha
      simp [haT]
    rw [h1, h2, List.nil_append]
  have hsplit := key (m.must_have_keys.take n) (m.must_have_keys.drop n)
    (by rw [List.take_append_drop]; exact hnd)
  rw [List.take_append_drop] at hsplit
  exact hsplit

/-- The positional extraction is already in canonical order, so the sort
leaves it unchanged. -/
theorem sortQas_pos (m : Mapping) (hnd : m.must_have_keys.Nodup) (n : Nat) :
    sortQas m ((m.must_have_keys.take n).map (posQA m)) =
      (m.must_have_keys.take n).map (posQA m) := by
  apply List.Sorted.insertionSort_eq
  refine List.pairwise_iff_getElem.mpr ?_
  intro i j hi hj hij
  have hi' : i < (m.must_have_keys.take n).length := by simpa using hi
  have hj' : j < (m.must_have_keys.take n).length := by simpa using hj
  have hmi : i < m.must_have_keys.length := by
    simp [List.length_take] at hi'
    omega
  have hmj : j < m.must_have_keys.length := by
    simp [List.length_take] at hj'
    omega
  show qaOrder m _ _
  unfold qaOrder
  simp only [List.getElem_map, List.getElem_take, posQA]
  rw [pyOrderGet_getElem _ hnd i hmi, pyOrderGet_getElem _ hnd j hmj]
  omega

/-- The user dict of a positional payload is all defaults. -/
theorem userOf_pos (vs : List String) : userOf (mkPosPayload vs) = emptyUserT := rfl

/-- C9 (counterexample): one bare answer value yes against required keys
A, B, C yields a single normalized pair with key A and an empty answer —
the bare value is discarded, not mapped — and no empty-string pairs are
padded for B and C: they are reported missing instead.  The claim
predicts the pairs (A, yes), (B, empty), (C, empty). -/
theorem c9_counterexample_bare_answer_lost_no_padding :
    validate loadsNone true (mkPosPayload ["yes"]) mapABC =
      .ok (emptyUserT, [⟨"A", "Question A", ""⟩], ⟨["B", "C"]⟩) ∧
    ([(⟨"A", "Question A", ""⟩ : QA)] ≠
      [⟨"A", "Question A", "yes"⟩, ⟨"B", "Question B", ""⟩, ⟨"C", "Question C", ""⟩]) :=
  ⟨rfl, by decide⟩

/-- C9 (amended): for a positional array of bare answer values, the items
are assigned the first min(answers, configured keys) canonical keys in
sequence order, but each pair carries an empty answer (the bare value is
dropped by the question/answer extractor); excess answers beyond the
configured keys are skipped, and keys beyond the supplied answers are not
padded into the pair list — they are reported as the missing keys. -/
theorem c9_amended_positional (loads : String → Option JVal) (vs : List String) (m : Mapping)
    (hnd : m.must_have_keys.Nodup) :
    validate loads true (mkPosPayload vs) m =
      .ok (emptyUserT, (m.must_have_keys.take vs.length).map (posQA m),
           ⟨m.must_have_keys.drop vs.length⟩) := by
  unfold validate
  rw [qaItems_pos]
  dsimp only
  rw [extractLoop_bare m vs 0]
  dsimp only
  rw [List.drop_zero]
  rw [missingOf_pos m hnd]
  simp only [Bool.not_true, Bool.and_false]
  rw [if_neg (by simp)]
  rw [userOf_pos, sortQas_pos m hnd]

/-- C9 witness: the amended positional behavior at one bare answer
against the A, B, C catalog. -/
theorem c9_amended_witness :
    mapABC.must_have_keys.Nodup ∧
    validate loadsNone true (mkPosPayload ["yes"]) mapABC =
      .ok (emptyUserT, (mapABC.must_have_keys.take 1).map (posQA mapABC),
           ⟨mapABC.must_have_keys.drop 1⟩) ∧
    (mapABC.must_have_keys.take 1).map (posQA mapABC) = [⟨"A", "Question A", ""⟩] ∧
    mapABC.must_have_keys.drop 1 = ["B", "C"] :=
  ⟨by decide, c9_amended_positional loadsNone ["yes"] mapABC (by decide), rfl, rfl⟩

/-- The normalized list of a successful validation is the stable sort of
the extracted pairs. -/
theorem validate_ok_sort (loads : String → Option JVal) (ap : Bool) (p : JVal) (m : Mapping)
    (items : List JVal) (pre : List QA) (u : UserT) (qas : List QA) (val : Validation)
    (hitems : qaItems loads p = .arr items)
    (hpre : extractLoop ap m items 0 = .ok pre)
    (hok : validate loads ap p m = .ok (u, qas, val)) :
    qas = sortQas m pre := by
  unfold validate at hok
  rw [hitems] at hok
  dsimp only at hok
  rw [hpre] at hok
  dsimp only at hok
  by_cases hg : (!(missingOf m pre).isEmpty && !ap) = true
  · rw [if_pos hg] at hok; cases hok
  · rw [if_neg hg] at hok
    simp only [Except.ok.injEq, Prod.mk.injEq] at hok
    exact hok.2.1.symm

/-- Ordered insertion passes over every element it does not precede. -/
theorem qaOrder_orderedInsert_append (m : Mapping) (x : QA) :
    ∀ (A B : List QA), (∀ a ∈ A, ¬ qaOrder m x a) →
      List.orderedInsert (qaOrder m) x (A ++ B) = A ++ List.orderedInsert (qaOrder m) x B := by
  intro A
  induction A with
  | nil => intro B _; simp
  | cons a A ih =>
    intro B h
    rw [List.cons_append, List.orderedInsert, if_neg (h a (List.mem_cons_self a A))]
    rw [ih B (fun b hb => h b (List.mem_cons_of_mem a hb)), List.cons_append]

/-- Ordered insertion in front of a block it precedes. -/
theorem qaOrder_orderedInsert_head (m : Mapping) (x : QA) (B : List QA)
    (h : ∀ b ∈ B, qaOrder m x b) :
    List.orderedInsert (qaOrder m) x B = x :: B := by
  cases B with
  | nil => rfl
  | cons b bs => rw [List.orderedInsert, if_pos (h b (List.mem_cons_self b bs))]

/-- Ordered insertion stays inside the left block when the right block is
entirely preceded by the inserted element. -/
theorem qaOrder_orderedInsert_right (m : Mapping) (x : QA) :
    ∀ (A B : List QA), (∀ b ∈ B, qaOrder m x b) →
      List.orderedInsert (qaOrder m) x (A ++ B) =
        List.orderedInsert (qaOrder m) x A ++ B := by
  intro A
  induction A with
  | nil =>
    intro B h
    rw [List.nil_append, qaOrder_orderedInsert_head m x B h, List.orderedInsert_nil,
        List.singleton_append]
  | cons a A ih =>
    intro B h
    rw [List.cons_append, List.orderedInsert, List.orderedInsert]
    by_cases hr : qaOrder m x a
    · rw [if_pos hr, if_pos hr]
      simp [List.cons_append]
    · rw [if_neg hr, if_neg hr, ih B h]
      simp [List.cons_append]

/-- The stable sort splits into the sorted below-sentinel part followed
by the sentinel part in input order (every key weight is at most the
sentinel). -/
theorem sortQas_filter_split (m : Mapping) :
    ∀ (l : List QA), (∀ x ∈ l, pyOrderGet m.must_have_keys x.key ≤ 9999) →
      sortQas m l =
        sortQas m (l.filter (fun x => pyOrderGet m.must_have_keys x.key < 9999)) ++
          l.filter (fun x => ¬ pyOrderGet m.must_have_keys x.key < 9999) := by
  intro l
  induction l with
  | nil => intro _; rfl
  | cons x l ih =>
    intro h
    have hx : pyOrderGet m.must_have_keys x.key ≤ 9999 := h x (List.mem_cons_self x l)
    have hl : ∀ y ∈ l, pyOrderGet m.must_have_keys y.key ≤ 9999 :=
      fun y hy => h y (List.mem_cons_of_mem x hy)
    unfold sortQas at ih ⊢
    rw [List.insertionSort, ih hl]
    by_cases hxK : pyOrderGet m.must_have_keys x.key < 9999
    · have hB : ∀ b ∈ l.filter (fun y => ¬ pyOrderGet m.must_have_keys y.key < 9999),
          qaOrder m x b := by
        intro b hb
        have hmem := List.mem_filter.mp hb
        have hb2 : ¬ pyOrderGet m.must_have_keys b.key < 9999 := by simpa using hmem.2
        show pyOrderGet m.must_have_keys x.key ≤ pyOrderGet m.must_have_keys b.key
        omega
      rw [qaOrder_orderedInsert_right m x _ _ hB]
      rw [List.filter_cons_of_pos (by simpa using hxK),
          List.filter_cons_of_neg (by simpa using hxK)]
      simp only [List.insertionSort]
    · have hA : ∀ a ∈ List.insertionSort (qaOrder m)
          (l.filter (fun y => pyOrderGet m.must_have_keys y.key < 9999)), ¬ qaOrder m x a := by
        intro a ha
        have hmem : a ∈ l.filter (fun y => pyOrderGet m.must_have_keys y.key < 9999) :=
          (List.mem_insertionSort _).mp ha
        have ha2 : pyOrderGet m.must_have_keys a.key < 9999 := by
          simpa using (List.mem_filter.mp hmem).2
        show ¬ pyOrderGet m.must_have_keys x.key ≤ pyOrderGet m.must_have_keys a.key
        omega
      rw [qaOrder_orderedInsert_append m x _ _ hA]
      have hE : ∀ b ∈ l.filter (fun y => ¬ pyOrderGet m.must_have_keys y.key < 9999),
          qaOrder m x b := by
        intro b hb
        have hmem := List.mem_filter.mp hb
        have hb2 : ¬ pyOrderGet m.must_have_keys b.key < 9999 := by simpa using hmem.2
        show pyOrderGet m.must_have_keys x.key ≤ pyOrderGet m.must_have_keys b.key
        omega
      rw [qaOrder_orderedInsert_head m x _ hE]
      rw [List.filter_cons_of_neg (by simpa using hxK),
          List.filter_cons_of_pos (by simpa using hxK)]

/-- Last index over an append: the right part wins. -/
theorem lastIdx_append (l1 l2 : List String) (k : String) :
    lastIdx (l1 ++ l2) k =
      match lastIdx l2 k with
      | some j => some (l1.length + j)
      | none => lastIdx l1 k := by
  induction l1 with
  | nil =>
    cases h2 : lastIdx l2 k <;> simp [h2, lastIdx]
  | cons a t ih =>
    rw [List.cons_append, lastIdx, ih]
    cases h2 : lastIdx l2 k with
    | none => rw [lastIdx]
    | some j =>
      dsimp only
      have harith : t.length + j + 1 = (a :: t).length + j := by
        simp only [List.length_cons]
        omega
      rw [harith]

/-- The key generated for position n is the last index of a generated
range, provided it matches itself as a singleton. -/
theorem lastIdx_map_range (f : Nat → String) (n : Nat)
    (h : lastIdx [f n] (f n) = some 0) :
    lastIdx ((List.range (n + 1)).map f) (f n) = some n := by
  rw [List.range_succ, List.map_append]
  simp only [List.map_cons, List.map_nil]
  rw [lastIdx_append, h]
  show some (((List.range n).map f).length + 0) = some n
  rw [List.length_map, List.length_range, Nat.add_zero]

/-- The 10001st generated key has order weight 10000. -/
theorem pyOrderGet_big_k10000 : pyOrderGet mhBig "k10000" = 10000 := by
  have h : lastIdx mhBig "k10000" = some 10000 :=
    lastIdx_map_range (fun i => "k" ++ toString i) 10000 rfl
  rw [pyOrderGet, h]

/-- The off-sequence key X is not among the generated keys. -/
theorem big_X_not_mem : "X" ∉ mhBig := by
  intro h
  unfold mhBig at h
  obtain ⟨i, -, hfi⟩ := List.mem_map.mp h
  have hd := congrArg String.data hfi
  rw [String.data_append] at hd
  cases hd

/-- The 10001st generated key is among the generated keys. -/
theorem big_k10000_mem : "k10000" ∈ mhBig := by
  unfold mhBig
  exact List.mem_map.mpr ⟨10000, by simp, rfl⟩

/-- C7 (counterexample): with a catalog of 10001 required keys, the item
of the out-of-sequence question X sorts with the 9999 sentinel weight and
lands before the pair of the 10001st required key (weight 10000), so the
pairs whose keys are outside the canonical sequence are not appended at
the end. -/
theorem c7_counterexample_sentinel_overflow :
    qaKeysOf (validate loadsNone true payloadBig mapBig) = ["X", "k10000"] ∧
    "X" ∉ mapBig.must_have_keys ∧
    "k10000" ∈ mapBig.must_have_keys := by
  have hX : pyOrderGet mhBig "X" = 9999 := pyOrderGet_not_mem _ _ big_X_not_mem
  have hmk : mapBig.must_have_keys = mhBig := by with_reducible rfl
  have hord : qaOrder mapBig ⟨"X", "Question X", "ax"⟩ ⟨"k10000", "Question K", "ak"⟩ := by
    rw [qaOrder, hmk]
    rw [hX, pyOrderGet_big_k10000]
    omega
  have hsort : sortQas mapBig
      [⟨"X", "Question X", "ax"⟩, ⟨"k10000", "Question K", "ak"⟩] =
      [⟨"X", "Question X", "ax"⟩, ⟨"k10000", "Question K", "ak"⟩] := by
    rw [sortQas]
    simp only [List.insertionSort, List.orderedInsert_nil]
    rw [List.orderedInsert, if_pos hord]
  have hval : validate loadsNone true payloadBig mapBig =
      .ok (userOf payloadBig,
           sortQas mapBig [⟨"X", "Question X", "ax"⟩, ⟨"k10000", "Question K", "ak"⟩],
           ⟨missingOf mapBig [⟨"X", "Question X", "ax"⟩, ⟨"k10000", "Question K", "ak"⟩]⟩) := by
    rw [validate]
    rw [show qaItems loadsNone payloadBig =
        .arr [.obj [("question", .s "X"), ("answer", .s "ax")],
              .obj [("question", .s "k10000"), ("answer", .s "ak")]] from rfl]
    dsimp only
    rw [show extractLoop true mapBig
        [.obj [("question", .s "X"), ("answer", .s "ax")],
         .obj [("question", .s "k10000"), ("answer", .s "ak")]] 0 =
        .ok [⟨"X", "Question X", "ax"⟩, ⟨"k10000", "Question K", "ak"⟩] from rfl]
    dsimp only
    rw [if_neg (by simp [Bool.and_false])]
  refine ⟨?_, ?_, ?_⟩
  · rw [hval, hsort]
    rfl
  · rw [hmk]
    exact big_X_not_mem
  · rw [hmk]
    exact big_k10000_mem

/-- C7 (amended): provided the catalog's canonical sequence has at most
9999 keys (the implementation weighs out-of-sequence keys with the 9999
sentinel), the normalized pairs of a successful validation are the
in-sequence pairs sorted by their canonical position followed by the
out-of-sequence pairs in their extraction (input) order. -/
theorem c7_amended_canonical_order_under_sentinel (loads : String → Option JVal)
    (ap : Bool) (p : JVal) (m : Mapping) (items : List JVal) (pre : List QA)
    (u : UserT) (qas : List QA) (val : Validation)
    (hlen : m.must_have_keys.length ≤ 9999)
    (hitems : qaItems loads p = .arr items)
    (hpre : extractLoop ap m items 0 = .ok pre)
    (hok : validate loads ap p m = .ok (u, qas, val)) :
    ∃ front,
      qas = front ++ pre.filter (fun qa => ¬ m.must_have_keys.contains qa.key) ∧
      front.Perm (pre.filter (fun qa => m.must_have_keys.contains qa.key)) ∧
      front.Pairwise (qaOrder m) := by
  have hqas := validate_ok_sort loads ap p m items pre u qas val hitems hpre hok
  have hbound : ∀ x ∈ pre, pyOrderGet m.must_have_keys x.key ≤ 9999 := by
    intro x _
    by_cases hm : x.key ∈ m.must_have_keys
    · have := pyOrderGet_lt_of_mem _ _ hm
      omega
    · rw [pyOrderGet_not_mem _ _ hm]
  have hialt : ∀ x : QA, (decide (pyOrderGet m.must_have_keys x.key < 9999))
      = m.must_have_keys.contains x.key := by
    intro x
    by_cases hm : x.key ∈ m.must_have_keys
    · have h1 := pyOrderGet_lt_of_mem _ _ hm
      have h2 : pyOrderGet m.must_have_keys x.key < 9999 := by omega
      simp [h2, hm]
    · rw [pyOrderGet_not_mem _ _ hm]
      simp [hm]
  have hfilters1 : pre.filter (fun x => pyOrderGet m.must_have_keys x.key < 9999)
      = pre.filter (fun qa => m.must_have_keys.contains qa.key) :=
    List.filter_congr (fun a _ => hialt a)
  have hfilters2 : pre.filter (fun x => ¬ pyOrderGet m.must_have_keys x.key < 9999)
      = pre.filter (fun qa => ¬ m.must_have_keys.contains qa.key) := by
    apply List.filter_congr
    intro a _
    simp only [decide_not, hialt a]
    cases m.must_have_keys.contains a.key <;> rfl
  rw [hqas, sortQas_filter_split m pre hbound, hfilters1, hfilters2]
  refine ⟨sortQas m (pre.filter (fun qa => m.must_have_keys.contains qa.key)), rfl, ?_, ?_⟩
  · exact List.perm_insertionSort _ _
  · exact List.sorted_insertionSort (qaOrder m) _

/-- C7 witness: catalog with sequence A, B plus the off-sequence question
C, items supplied in the order C, B, A: the result is A, B sorted by the
sequence followed by C at the end. -/
theorem c7_amended_witness :
    mapABplusC.must_have_keys.length ≤ 9999 ∧
    (∃ front,
      [(⟨"A", "Question A", "a"⟩ : QA), ⟨"B", "Question B", "b"⟩, ⟨"C", "Question C", "c"⟩] =
        front ++ ([⟨"C", "Question C", "c"⟩, ⟨"B", "Question B", "b"⟩,
                   ⟨"A", "Question A", "a"⟩] : List QA).filter
          (fun qa => ¬ mapABplusC.must_have_keys.contains qa.key) ∧
      front.Perm (([⟨"C", "Question C", "c"⟩, ⟨"B", "Question B", "b"⟩,
                    ⟨"A", "Question A", "a"⟩] : List QA).filter
          (fun qa => mapABplusC.must_have_keys.contains qa.key)) ∧
      front.Pairwise (qaOrder mapABplusC)) :=
  ⟨by decide,
   c7_amended_canonical_order_under_sentinel loadsNone true payloadCBA mapABplusC
     [.obj [("question", .s "C"), ("answer", .s "c")],
      .obj [("question", .s "B"), ("answer", .s "b")],
      .obj [("question", .s "A"), ("answer", .s "a")]]
     [⟨"C", "Question C", "c"⟩, ⟨"B", "Question B", "b"⟩, ⟨"A", "Question A", "a"⟩]
     emptyUserT
     [⟨"A", "Question A", "a"⟩, ⟨"B", "Question B", "b"⟩, ⟨"C", "Question C", "c"⟩]
     ⟨[]⟩ (by decide) rfl rfl rfl⟩

/-- C5 witness: required keys A and B with only A supplied in permissive
mode: the missing set is exactly [B], no mandatory-missing failure, and
the result reports [B]. -/
theorem c5_amended_witness :
    validate loadsNone true payloadOnlyA mapAB =
      .ok (emptyUserT, [⟨"A", "Question A", "x"⟩], ⟨["B"]⟩) ∧
    missingOf mapAB [⟨"A", "Question A", "x"⟩] = ["B"] ∧
    (⟨["B"]⟩ : Validation).missing_keys = missingOf mapAB [⟨"A", "Question A", "x"⟩] :=
  ⟨rfl, rfl,
   (c5_amended_missing_gate loadsNone true payloadOnlyA mapAB
      [JVal.obj [("question", .s "A"), ("answer", .s "x")]]
      [⟨"A", "Question A", "x"⟩] rfl rfl).2
     emptyUserT [⟨"A", "Question A", "x"⟩] ⟨["B"]⟩ rfl⟩

end RingAdapter
